import Mathlib

/-!
# sql_exporter: a shallow embedding of `sql_exporter.go`

The program probes every configured SQL query once at start-up (`GetCounters`,
`NewExporter`) to build one metric family per query, and on every scrape
(`Exporter.Collect`) re-runs the queries and republishes each row as a labelled
sample.

The database (`database/sql`) and the metrics library (`prometheus`) are the two
collaborators of the program.  They are modelled by the interface the program
uses:

* a database is what it answers during one call of `GetCounters` or `Collect`:
  the result of `Ping()` and, for every SQL text, the result of `Query(sql)`: an
  error, or a result set with `Columns()` and the rows `Next()` steps through;
* a metric family (`*prometheus.CounterVec`) is its descriptor and its children,
  one per label tuple; `WithLabelValues(lvs...)` gets or creates the child of a
  tuple and panics when the number of values differs from the number of label
  names; `Set` stores a value in the child; `Collect` sends every child (in an
  order the library leaves open; the model sends them in order of creation);
* the counter `scrapeFailures` is the number of `Inc()` calls made on it;
* a Go `error` is its message; a Go run-time panic is an outcome of its own;
* the channel `ch` is the list of metrics sent on it, in sending order; the SQL
  texts handed to `Query` are recorded in execution order.

Logging (`log.Debugf`) and `defer rows.Close()` leave no trace in the model; the
mutex of `Collect` has no counterpart, every call being one step.
-/

namespace SqlExporter

/-! ## Data model -/

/-- A `float64` value.  The program only stores such values and reads them back,
it never computes with them, so a value is stood for by a number that tells it
from the others (its 64-bit pattern, say; in the examples `⟨5⟩` stands for 5). -/
structure Float64 where
  code : Nat
  deriving DecidableEq, Repr

/-- The constant `namespace = "sql"`. -/
def namespace_ : String := "sql"

/-- The type `Query`: one configured query. -/
structure Query where
  SQL : String
  Name : String
  Help : String
  deriving DecidableEq, Repr

/-- The type `Config`. -/
structure Config where
  DriverName : String
  DataSourceName : String
  Queries : List Query
  deriving DecidableEq, Repr

/-- One column of one result row, as `rows.Scan` sees it: what converting it into
a `*float64` destination gives and what converting it into a `*string`
destination gives (a value, or the conversion error). -/
structure Cell where
  asFloat64 : Except String Float64
  asString : Except String String

/-- The `*sql.Rows` of one `Query` call: the outcome of `Columns()` and the rows
that `Next()` steps through. -/
structure ResultSet where
  columns : Except String (List String)
  rows : List (List Cell)

/-- The database as the program meets it: `Ping()` (`none` is success) and
`Query(sql)`. -/
structure DB where
  ping : Option String
  query : String → Except String ResultSet

/-- A `*prometheus.CounterVec`: the descriptor built by `NewCounterVec` and the
children, one per label tuple, each holding the value last stored in it. -/
structure CounterVec where
  Namespace : String
  Name : String
  Help : String
  labelNames : List String
  children : List (List String × Float64)
  deriving DecidableEq, Repr

/-- The type `Exporter`: the configuration, the number of `Inc()` calls made
on `scrapeFailures`, and the metric families.  The database handle is passed to
each operation instead of being stored. -/
structure Exporter where
  config : Config
  scrapeFailures : Nat
  counters : List CounterVec
  deriving DecidableEq, Repr

/-- A metric sent on the channel `ch`: a child of the family `counters[family]`
with its label values and value, or the scrape-failure counter with its count. -/
inductive Metric where
  | sample (family : Nat) (labelValues : List String) (value : Float64)
  | scrapeFailures (count : Nat)
  deriving DecidableEq, Repr

/-- What a Go function returning `(T, error)` does: it returns a value, returns
an error, or panics. -/
inductive Outcome (α : Type) where
  | ok (a : α)
  | err (e : String)
  | panic
  deriving DecidableEq, Repr

/-- What a Go function that works on a state `σ` and returns `error` does: it
returns `nil` (`done`) or an error (`failed`), leaving the state it reached, or
it panics. -/
inductive Run (σ : Type) where
  | done (s : σ)
  | failed (s : σ) (e : String)
  | panic
  deriving DecidableEq, Repr

/-- One successfully scanned row: `value` and `container`. -/
structure Row where
  value : Float64
  labels : List String
  deriving DecidableEq, Repr

/-! ## The metrics library, as used -/

/-- The call `prometheus.NewCounterVec(CounterOpts{Namespace, Name, Help}, labelNames)`:
a family without children. -/
def NewCounterVec (ns name help : String) (labelNames : List String) : CounterVec :=
  { Namespace := ns, Name := name, Help := help, labelNames := labelNames, children := [] }

/-- Storing `v` in the child of the label tuple `lvs`: the child is created when
the family has none for `lvs`, and overwritten otherwise. -/
def setChild (lvs : List String) (v : Float64) (children : List (List String × Float64)) :
    List (List String × Float64) :=
  if children.any (fun p => decide (p.1 = lvs)) then
    children.map (fun p => if p.1 = lvs then (p.1, v) else p)
  else
    children ++ [(lvs, v)]

/-- The value held by the child of the label tuple `lvs`, if there is one. -/
def getChild (lvs : List String) (children : List (List String × Float64)) : Option Float64 :=
  (children.find? (fun p => decide (p.1 = lvs))).map (fun p => p.2)

/-- The call `cv.WithLabelValues(lvs...).Set(v)`: `none` is the panic of `WithLabelValues`
on a number of label values other than the number of label names. -/
def CounterVec.WithLabelValuesSet (cv : CounterVec) (lvs : List String) (v : Float64) :
    Option CounterVec :=
  if lvs.length ≠ cv.labelNames.length then none
  else some { cv with children := setChild lvs v cv.children }

/-- The call `counters[i].Collect(ch)`: every child of the family is sent. -/
def CounterVec.Collect (cv : CounterVec) (i : Nat) : List Metric :=
  cv.children.map (fun p => Metric.sample i p.1 p.2)

/-! ## The database library, as used -/

/-- The error of `rows.Scan` when the number of destinations is not the number of
columns of the row. -/
def errDestinations : String := "sql: wrong number of destination arguments in Scan"

/-- Scanning the label columns into `container`: each into a `*string`. -/
def scanLabels : List Cell → Except String (List String)
  | [] => .ok []
  | c :: cs =>
    match c.asString with
    | .error e => .error e
    | .ok s =>
      match scanLabels cs with
      | .error e => .error e
      | .ok ss => .ok (s :: ss)

/-- The call `rows.Scan(pointers...)` with `n` destinations (`n = len(cols)`, at least 1
where it is called): `pointers[0] = &value` is a `*float64` and
`pointers[j+1] = &container[j]` are `*string`. -/
def Scan (n : Nat) : List Cell → Except String Row
  | [] => .error errDestinations
  | c :: cs =>
    if cs.length + 1 ≠ n then .error errDestinations
    else
      match c.asFloat64 with
      | .error e => .error e
      | .ok v =>
        match scanLabels cs with
        | .error e => .error e
        | .ok ls => .ok { value := v, labels := ls }

/-! ## Initialisation -/

/-- The loop of `GetCounters` over `config.Queries`. -/
def GetCounters.loop (db : DB) : List Query → Outcome (List CounterVec)
  | [] => .ok []
  | q :: qs =>
    match db.query q.SQL with
    | .error e => .err e
    | .ok rs =>
      match rs.columns with
      | .error e => .err e
      | .ok cols =>
        match cols with
        | [] => .panic
        | _ :: labelNames =>
          match GetCounters.loop db qs with
          | .ok fams => .ok (NewCounterVec namespace_ q.Name q.Help labelNames :: fams)
          | .err e => .err e
          | .panic => .panic

/-- The function `GetCounters(config *Config, db *sql.DB) ([]*prometheus.CounterVec, error)`. -/
def GetCounters (config : Config) (db : DB) : Outcome (List CounterVec) :=
  match db.ping with
  | some e => .err e
  | none => GetCounters.loop db config.Queries

/-- The function `NewExporter(config *Config, db *sql.DB) (*Exporter, error)`. -/
def NewExporter (config : Config) (db : DB) : Outcome Exporter :=
  match GetCounters config db with
  | .err e => .err e
  | .panic => .panic
  | .ok counters => .ok { config := config, scrapeFailures := 0, counters := counters }

/-! ## The scrape cycle -/

/-- What a scrape cycle works on: the families, the metrics sent on `ch` so far,
and the SQL texts handed to `db.Query` so far. -/
structure Scrape where
  counters : List CounterVec
  ch : List Metric
  executed : List String
  deriving DecidableEq, Repr

/-- The loop `for rows.Next() { ... }` of `collect` for query `i`, with
`n = len(cols)` scan destinations. -/
def rowLoop (n i : Nat) : List (List Cell) → List CounterVec → Run (List CounterVec)
  | [], counters => .done counters
  | r :: rest, counters =>
    match Scan n r with
    | .error e => .failed counters e
    | .ok row =>
      match counters[i]? with
      | none => .panic
      | some cv =>
        match cv.WithLabelValuesSet row.labels row.value with
        | none => .panic
        | some cv1 => rowLoop n i rest (counters.set i cv1)

/-- The loop of `collect` over `e.config.Queries`, from index `i` on. -/
def collectLoop (db : DB) : Nat → List Query → Scrape → Run Scrape
  | _, [], s => .done s
  | i, q :: qs, s =>
    let s1 : Scrape := { s with executed := s.executed ++ [q.SQL] }
    match db.query q.SQL with
    | .error e => .failed s1 e
    | .ok rs =>
      match rs.columns with
      | .error e => .failed s1 e
      | .ok cols =>
        if cols.length = 0 then .panic
        else
          match rowLoop cols.length i rs.rows s1.counters with
          | .panic => .panic
          | .failed counters1 e => .failed { s1 with counters := counters1 } e
          | .done counters1 =>
            match counters1[i]? with
            | none => .panic
            | some cv =>
              collectLoop db (i + 1) qs
                { s1 with counters := counters1, ch := s1.ch ++ cv.Collect i }

/-- The method `(e *Exporter) collect(ch chan<- prometheus.Metric) error`. -/
def Exporter.collect (e : Exporter) (db : DB) : Run Scrape :=
  match db.ping with
  | some err => .failed { counters := e.counters, ch := [], executed := [] } err
  | none => collectLoop db 0 e.config.Queries { counters := e.counters, ch := [], executed := [] }

/-- What one call of `Collect` leaves: the exporter after it, the metrics it sent
on `ch`, and the SQL texts it executed. -/
structure Collected where
  exporter : Exporter
  emitted : List Metric
  executed : List String
  deriving DecidableEq, Repr

/-- The method `(e *Exporter) Collect(ch chan<- prometheus.Metric)`; `none` is a panic. -/
def Exporter.Collect (e : Exporter) (db : DB) : Option Collected :=
  match e.collect db with
  | .panic => none
  | .done s =>
    some { exporter := { e with counters := s.counters }, emitted := s.ch,
           executed := s.executed }
  | .failed s _ =>
    some { exporter := { e with counters := s.counters, scrapeFailures := e.scrapeFailures + 1 },
           emitted := s.ch ++ [Metric.scrapeFailures (e.scrapeFailures + 1)],
           executed := s.executed }

/-! ## Vocabulary of the statements -/

/-- The children of a family after the rows `rows` have been set on it, in
order. -/
def setRows (rows : List Row) (children : List (List String × Float64)) :
    List (List String × Float64) :=
  rows.foldl (fun ch r => setChild r.labels r.value ch) children

/-- The family `cv` after the rows `rows` have been set on it. -/
def CounterVec.withRows (cv : CounterVec) (rows : List Row) : CounterVec :=
  { cv with children := setRows rows cv.children }

/-- The rows among `raws` that scan with `n` destinations, scanned. -/
def scanned (n : Nat) (raws : List (List Cell)) : List Row :=
  raws.filterMap (fun r => (Scan n r).toOption)

/-- The rows query `q` gives, scanned (none when the query or `Columns()` fails). -/
def rowsOf (db : DB) (q : Query) : List Row :=
  match db.query q.SQL with
  | .error _ => []
  | .ok rs =>
    match rs.columns with
    | .error _ => []
    | .ok cols => scanned cols.length rs.rows

/-- Query `q` answers a scrape of the family `cv`: the query executes and
reports its columns, at least one; every row scans; and, when there are rows,
the columns are as many as the label names of the family plus the value column
(so that `WithLabelValues` accepts the scanned label values). -/
def Answers (db : DB) (q : Query) (cv : CounterVec) : Prop :=
  ∃ rs cols, db.query q.SQL = .ok rs ∧ rs.columns = .ok cols ∧ cols ≠ [] ∧
    (∀ r ∈ rs.rows, ∃ row, Scan cols.length r = .ok row) ∧
    (rs.rows = [] ∨ cols.length = cv.labelNames.length + 1)

/-- The families `cvs` after the queries `qs` have each set their rows on the
family of the same position. -/
def refreshed (db : DB) (qs : List Query) (cvs : List CounterVec) : List CounterVec :=
  List.zipWith (fun q cv => cv.withRows (rowsOf db q)) qs cvs

/-- What the families `cvs`, numbered from `i` on, send when each is collected
in turn. -/
def collectAll : Nat → List CounterVec → List Metric
  | _, [] => []
  | i, cv :: cvs => cv.Collect i ++ collectAll (i + 1) cvs

/-- A child `p` after the rows `rows` have gone by: each row with its label
tuple overwrites its value. -/
def overwritten (rows : List Row) (p : List String × Float64) : List String × Float64 :=
  rows.foldl (fun p r => if p.1 = r.labels then (p.1, r.value) else p) p

/-- The samples of family `i` among the metrics `ms`. -/
def samplesOf (i : Nat) (ms : List Metric) : List Metric :=
  ms.filter (fun m => match m with
    | .sample j _ _ => decide (j = i)
    | .scrapeFailures _ => false)

/-! ## Concrete databases and exporters used as examples -/

/-- A column holding the number `n`, whose text is `s`. -/
def cellNum (n : Nat) (s : String) : Cell := { asFloat64 := .ok ⟨n⟩, asString := .ok s }

/-- A column holding the text `s`, which is no number. -/
def cellText (s : String) : Cell :=
  { asFloat64 := .error "converting driver.Value type string to a float64: invalid syntax",
    asString := .ok s }

/-- The query of the end-to-end example. -/
def exQuery : Query :=
  { SQL := "SELECT count, region FROM stats", Name := "stats", Help := "stats by region" }

/-- A second query. -/
def exQuery2 : Query := { SQL := "SELECT n FROM jobs", Name := "jobs", Help := "jobs" }

/-- A statement that gives no result columns. -/
def exQueryDo : Query := { SQL := "DO 1", Name := "noop", Help := "no columns" }

def exConfig : Config := { DriverName := "mysql", DataSourceName := "dsn", Queries := [exQuery] }

def exConfig2 : Config :=
  { DriverName := "mysql", DataSourceName := "dsn", Queries := [exQuery, exQuery2] }

def exConfigDo : Config :=
  { DriverName := "mysql", DataSourceName := "dsn", Queries := [exQueryDo] }

/-- The result set of the end-to-end example: rows `(5, "us")` and `(7, "eu")`. -/
def exStats : ResultSet :=
  { columns := .ok ["count", "region"],
    rows := [[cellNum 5 "5", cellText "us"], [cellNum 7 "7", cellText "eu"]] }

/-- A database that answers `exQuery` with `exStats` and knows no other table. -/
def exDB : DB :=
  { ping := none,
    query := fun sql => if sql = exQuery.SQL then .ok exStats else .error "no such table" }

/-- A result set whose second row has a text in the value column. -/
def exStatsBadRow : ResultSet :=
  { columns := .ok ["count", "region"],
    rows := [[cellNum 5 "5", cellText "us"], [cellText "n/a", cellText "eu"]] }

/-- A database that answers `exQuery` with `exStatsBadRow`. -/
def exDBBadRow : DB :=
  { ping := none,
    query := fun sql => if sql = exQuery.SQL then .ok exStatsBadRow else .error "no such table" }

/-- A result set with two rows of the same label tuple: `(5, "us")`, `(7, "us")`. -/
def exStatsDup : ResultSet :=
  { columns := .ok ["count", "region"],
    rows := [[cellNum 5 "5", cellText "us"], [cellNum 7 "7", cellText "us"]] }

/-- A database that answers `exQuery` with `exStatsDup`. -/
def exDBDup : DB :=
  { ping := none,
    query := fun sql => if sql = exQuery.SQL then .ok exStatsDup else .error "no such table" }

/-- A result set with one label column more than `exStats`. -/
def exStatsWide : ResultSet :=
  { columns := .ok ["count", "region", "zone"],
    rows := [[cellNum 5 "5", cellText "us", cellText "a"]] }

/-- A database whose table `stats` has gained a column since the probe. -/
def exDBWide : DB :=
  { ping := none,
    query := fun sql => if sql = exQuery.SQL then .ok exStatsWide else .error "no such table" }

/-- A result set with one label column more than `exStats`, whose second row has
a text in the value column. -/
def exStatsWideBadRow : ResultSet :=
  { columns := .ok ["count", "region", "zone"],
    rows := [[cellNum 5 "5", cellText "us", cellText "a"],
             [cellText "n/a", cellText "eu", cellText "b"]] }

/-- A database that answers `exQuery` with `exStatsWideBadRow`. -/
def exDBWideBadRow : DB :=
  { ping := none,
    query := fun sql =>
      if sql = exQuery.SQL then .ok exStatsWideBadRow else .error "no such table" }

/-- A database that is down. -/
def exDBDown : DB := { ping := some "connection refused", query := fun _ => .error "bad connection" }

/-- A database that is up but has lost its tables. -/
def exDBLost : DB := { ping := none, query := fun _ => .error "connection lost" }

/-- A database that answers `DO 1` with a result set without columns. -/
def exDBDo : DB :=
  { ping := none,
    query := fun sql =>
      if sql = exQueryDo.SQL then .ok { columns := .ok [], rows := [] } else .error "no such table" }

/-- The family `stats` after an earlier scrape that saw `(1, "us")`. -/
def exFamilyOld : CounterVec :=
  { Namespace := "sql", Name := "stats", Help := "stats by region", labelNames := ["region"],
    children := [(["us"], ⟨1⟩)] }

/-- The exporter `NewExporter exConfig exDB` builds. -/
def exExporter : Exporter :=
  { config := exConfig, scrapeFailures := 0,
    counters := [NewCounterVec namespace_ "stats" "stats by region" ["region"]] }

/-- The exporter `exExporter` after an earlier scrape that saw `(1, "ap")`. -/
def exExporterStale : Exporter :=
  { config := exConfig, scrapeFailures := 0,
    counters := [{ Namespace := "sql", Name := "stats", Help := "stats by region",
                   labelNames := ["region"], children := [(["ap"], ⟨1⟩)] }] }

/-- The exporter `exExporter` with a second query and its family. -/
def exExporter2 : Exporter :=
  { config := exConfig2, scrapeFailures := 0,
    counters := [NewCounterVec namespace_ "stats" "stats by region" ["region"],
                 NewCounterVec namespace_ "jobs" "jobs" []] }

/-! ## Children of a family -/

theorem setChild_of_mem {k : List String} {v : Float64} {l : List (List String × Float64)}
    (h : ∃ p ∈ l, p.1 = k) :
    setChild k v l = l.map (fun p => if p.1 = k then (p.1, v) else p) := by
  unfold setChild
  have : l.any (fun p => decide (p.1 = k)) = true := by
    obtain ⟨p, hp, hk⟩ := h
    exact List.any_eq_true.mpr ⟨p, hp, by simp [hk]⟩
  rw [if_pos this]

theorem setChild_of_not_mem {k : List String} {v : Float64} {l : List (List String × Float64)}
    (h : ∀ p ∈ l, p.1 ≠ k) : setChild k v l = l ++ [(k, v)] := by
  unfold setChild
  have : ¬ (l.any (fun p => decide (p.1 = k)) = true) := by
    intro hany
    obtain ⟨p, hp, hk⟩ := List.any_eq_true.mp hany
    exact h p hp (by simpa using hk)
  rw [if_neg this]

theorem setChild_has_key (k : List String) (v : Float64) (l : List (List String × Float64)) :
    ∃ p ∈ setChild k v l, p.1 = k := by
  by_cases h : ∃ p ∈ l, p.1 = k
  · rw [setChild_of_mem h]
    obtain ⟨p, hp, hk⟩ := h
    exact ⟨(p.1, v), List.mem_map.mpr ⟨p, hp, by simp [hk]⟩, hk⟩
  · have h' : ∀ p ∈ l, p.1 ≠ k := fun p hp hk => h ⟨p, hp, hk⟩
    rw [setChild_of_not_mem h']
    exact ⟨(k, v), by simp, rfl⟩

theorem setChild_keeps_keys {k : List String} {v : Float64} {l : List (List String × Float64)}
    {k1 : List String} (h : ∃ p ∈ l, p.1 = k1) : ∃ p ∈ setChild k v l, p.1 = k1 := by
  obtain ⟨p, hp, hk1⟩ := h
  by_cases h : ∃ p ∈ l, p.1 = k
  · rw [setChild_of_mem h]
    refine ⟨if p.1 = k then (p.1, v) else p, List.mem_map.mpr ⟨p, hp, rfl⟩, ?_⟩
    split <;> simp [hk1]
  · have h' : ∀ p ∈ l, p.1 ≠ k := fun p hp hk => h ⟨p, hp, hk⟩
    rw [setChild_of_not_mem h']
    exact ⟨p, by simp [hp], hk1⟩

theorem setChild_value {k : List String} {v : Float64} {l : List (List String × Float64)}
    {p : List String × Float64} (hp : p ∈ setChild k v l) (hk : p.1 = k) : p.2 = v := by
  by_cases h : ∃ p ∈ l, p.1 = k
  · rw [setChild_of_mem h] at hp
    obtain ⟨q, _, hq⟩ := List.mem_map.mp hp
    by_cases hqk : q.1 = k
    · rw [if_pos hqk] at hq
      rw [← hq]
    · rw [if_neg hqk] at hq
      rw [hq] at hqk
      exact absurd hk hqk
  · have h' : ∀ p ∈ l, p.1 ≠ k := fun p hp hk => h ⟨p, hp, hk⟩
    rw [setChild_of_not_mem h'] at hp
    rcases List.mem_append.mp hp with hp | hp
    · exact absurd hk (h' p hp)
    · simp at hp
      rw [hp]

theorem mem_setChild_of_ne {k : List String} {v : Float64} {l : List (List String × Float64)}
    {p : List String × Float64} (hk : p.1 ≠ k) : p ∈ setChild k v l ↔ p ∈ l := by
  by_cases h : ∃ p ∈ l, p.1 = k
  · rw [setChild_of_mem h]
    constructor
    · intro hp
      obtain ⟨q, hq, hqp⟩ := List.mem_map.mp hp
      by_cases hqk : q.1 = k
      · rw [if_pos hqk] at hqp
        rw [← hqp] at hk
        exact absurd hqk hk
      · rw [if_neg hqk] at hqp
        rw [← hqp]
        exact hq
    · intro hp
      exact List.mem_map.mpr ⟨p, hp, by rw [if_neg hk]⟩
  · have h' : ∀ p ∈ l, p.1 ≠ k := fun p hp hk => h ⟨p, hp, hk⟩
    rw [setChild_of_not_mem h']
    constructor
    · intro hp
      rcases List.mem_append.mp hp with hp | hp
      · exact hp
      · simp at hp
        rw [hp] at hk
        exact absurd rfl hk
    · intro hp
      exact List.mem_append.mpr (Or.inl hp)

theorem setRows_nil (l : List (List String × Float64)) : setRows [] l = l := rfl

theorem setRows_cons (r : Row) (rows : List Row) (l : List (List String × Float64)) :
    setRows (r :: rows) l = setRows rows (setChild r.labels r.value l) := rfl

theorem setRows_append (rows1 rows2 : List Row) (l : List (List String × Float64)) :
    setRows (rows1 ++ rows2) l = setRows rows2 (setRows rows1 l) := by
  unfold setRows
  rw [List.foldl_append]

theorem setRows_keeps_keys (rows : List Row) {l : List (List String × Float64)}
    {k : List String} (h : ∃ p ∈ l, p.1 = k) : ∃ p ∈ setRows rows l, p.1 = k := by
  induction rows generalizing l with
  | nil => exact h
  | cons r rows ih =>
    rw [setRows_cons]
    exact ih (setChild_keeps_keys h)

theorem mem_setRows_of_ne (rows : List Row) {l : List (List String × Float64)}
    {p : List String × Float64} (hk : ∀ r ∈ rows, r.labels ≠ p.1) :
    p ∈ setRows rows l ↔ p ∈ l := by
  induction rows generalizing l with
  | nil => exact Iff.rfl
  | cons r rows ih =>
    rw [setRows_cons, ih (fun r1 h1 => hk r1 (List.mem_cons_of_mem _ h1))]
    exact mem_setChild_of_ne (fun h => hk r (List.mem_cons_self _ _) h.symm)

theorem setRows_has_key (rows : List Row) (l : List (List String × Float64)) (r : Row)
    (hr : r ∈ rows) : ∃ p ∈ setRows rows l, p.1 = r.labels := by
  obtain ⟨pre, post, rfl⟩ := List.append_of_mem hr
  rw [setRows_append, setRows_cons]
  exact setRows_keeps_keys post (setChild_has_key _ _ _)

/-- Every child whose tuple is that of a row holds the value of the last row
with that tuple. -/
theorem setRows_last_value (pre post : List Row) (r : Row) (l : List (List String × Float64))
    (hlast : ∀ r1 ∈ post, r1.labels ≠ r.labels) {p : List String × Float64}
    (hp : p ∈ setRows (pre ++ r :: post) l) (hk : p.1 = r.labels) : p.2 = r.value := by
  rw [setRows_append, setRows_cons] at hp
  rw [mem_setRows_of_ne post (fun r1 h1 => by rw [hk]; exact hlast r1 h1)] at hp
  exact setChild_value hp hk

theorem getChild_eq_some {k : List String} {v : Float64} {l : List (List String × Float64)}
    (hex : ∃ p ∈ l, p.1 = k) (hall : ∀ p ∈ l, p.1 = k → p.2 = v) : getChild k l = some v := by
  unfold getChild
  cases hfind : l.find? (fun p => decide (p.1 = k)) with
  | none =>
    obtain ⟨p, hp, hk⟩ := hex
    have := List.find?_eq_none.mp hfind p hp
    simp [hk] at this
  | some q =>
    have hq : q ∈ l := List.mem_of_find?_eq_some hfind
    have hqk : q.1 = k := by simpa using List.find?_some hfind
    simp [hall q hq hqk]

theorem overwritten_cons (r : Row) (rows : List Row) (p : List String × Float64) :
    overwritten (r :: rows) p
      = overwritten rows (if p.1 = r.labels then (p.1, r.value) else p) := rfl

theorem overwritten_append (rows1 rows2 : List Row) (p : List String × Float64) :
    overwritten (rows1 ++ rows2) p = overwritten rows2 (overwritten rows1 p) := by
  unfold overwritten
  rw [List.foldl_append]

theorem overwritten_fst (rows : List Row) (p : List String × Float64) :
    (overwritten rows p).1 = p.1 := by
  induction rows generalizing p with
  | nil => rfl
  | cons r rows ih =>
    rw [overwritten_cons, ih]
    split <;> rfl

theorem setRows_eq_map (rows : List Row) (m : List (List String × Float64))
    (h : ∀ r ∈ rows, ∃ p ∈ m, p.1 = r.labels) : setRows rows m = m.map (overwritten rows) := by
  induction rows generalizing m with
  | nil =>
    show m = m.map (fun p => p)
    simp
  | cons r rows ih =>
    have hr : ∃ p ∈ m, p.1 = r.labels := h r (List.mem_cons_self _ _)
    rw [setRows_cons, ih _ (fun r1 h1 => setChild_keeps_keys (h r1 (List.mem_cons_of_mem _ h1))),
      setChild_of_mem hr, List.map_map]
    rfl

theorem overwritten_eq_self (rows : List Row) (p : List String × Float64)
    (h : ∀ pre r post, rows = pre ++ r :: post → r.labels = p.1 →
      (∀ r1 ∈ post, r1.labels ≠ r.labels) → p.2 = r.value) :
    overwritten rows p = p := by
  induction rows using List.reverseRecOn with
  | nil => rfl
  | append_singleton init r ih =>
    rw [overwritten_append]
    show (if (overwritten init p).1 = r.labels then ((overwritten init p).1, r.value)
      else overwritten init p) = p
    rw [overwritten_fst]
    by_cases hk : r.labels = p.1
    · rw [if_pos hk.symm]
      have hv : p.2 = r.value := h init r [] rfl hk (fun r1 h1 => by simp at h1)
      rw [← hv]
    · rw [if_neg (fun hk1 => hk hk1.symm)]
      apply ih
      intro pre r1 post hrows hr1 hpost
      apply h pre r1 (post ++ [r]) (by rw [hrows]; simp) hr1
      intro r2 h2
      rcases List.mem_append.mp h2 with h2 | h2
      · exact hpost r2 h2
      · simp at h2
        rw [h2, hr1]
        exact hk

/-- Setting the same rows a second time changes nothing. -/
theorem setRows_idem (rows : List Row) (l : List (List String × Float64)) :
    setRows rows (setRows rows l) = setRows rows l := by
  rw [setRows_eq_map rows (setRows rows l) (fun r hr => setRows_has_key rows l r hr)]
  conv_rhs => rw [← List.map_id (setRows rows l)]
  apply List.map_congr_left
  intro p hp
  show overwritten rows p = p
  apply overwritten_eq_self
  intro pre r post hrows hk hlast
  rw [hrows] at hp
  exact setRows_last_value pre post r l hlast hp hk.symm

/-- Rows with pairwise distinct label tuples, none of them in the family yet,
each add one child. -/
theorem setRows_fresh (rows : List Row) (l : List (List String × Float64))
    (hnew : ∀ r ∈ rows, ∀ p ∈ l, p.1 ≠ r.labels) (hnodup : (rows.map Row.labels).Nodup) :
    setRows rows l = l ++ rows.map (fun r => (r.labels, r.value)) := by
  induction rows generalizing l with
  | nil => simp [setRows_nil]
  | cons r rows ih =>
    rw [List.map_cons, List.nodup_cons] at hnodup
    rw [setRows_cons, setChild_of_not_mem (hnew r (List.mem_cons_self _ _)), ih _ _ hnodup.2]
    · simp
    · intro r1 h1 p hp
      rcases List.mem_append.mp hp with hp | hp
      · exact hnew r1 (List.mem_cons_of_mem _ h1) p hp
      · simp at hp
        rw [hp]
        intro heq
        exact hnodup.1 (List.mem_map.mpr ⟨r1, h1, heq.symm⟩)

/-! ## Scanning -/

theorem scanLabels_length {cs : List Cell} {ls : List String} (h : scanLabels cs = .ok ls) :
    ls.length = cs.length := by
  induction cs generalizing ls with
  | nil =>
    simp [scanLabels] at h
    subst h
    rfl
  | cons c cs ih =>
    unfold scanLabels at h
    split at h
    · cases h
    · split at h
      · cases h
      · rename_i ss hss
        cases h
        simp [ih hss]

theorem Scan_labels_length {n : Nat} {r : List Cell} {row : Row} (h : Scan n r = .ok row) :
    row.labels.length + 1 = n := by
  cases r with
  | nil => cases h
  | cons c cs =>
    rw [Scan] at h
    by_cases hn : cs.length + 1 ≠ n
    · rw [if_pos hn] at h
      cases h
    · rw [if_neg hn] at h
      cases hv : c.asFloat64 with
      | error e =>
        rw [hv] at h
        cases h
      | ok v =>
        cases hls : scanLabels cs with
        | error e =>
          rw [hv, hls] at h
          cases h
        | ok ls =>
          rw [hv, hls] at h
          cases h
          simp only [ne_eq, Decidable.not_not] at hn
          rw [scanLabels_length hls, hn]

/-! ## The row loop -/

theorem set_self_of_getElem? {α : Type} {l : List α} {i : Nat} {a : α} (h : l[i]? = some a) :
    l.set i a = l := by
  apply List.ext_getElem?
  intro j
  by_cases hj : i = j
  · subst hj
    rw [List.getElem?_set_self (List.getElem?_eq_some.mp h).1, h]
  · rw [List.getElem?_set_ne hj]

theorem withRows_nil (cv : CounterVec) : cv.withRows [] = cv := rfl

theorem scanned_nil (n : Nat) : scanned n [] = [] := rfl

theorem scanned_cons_ok {n : Nat} {r : List Cell} {row : Row} (raws : List (List Cell))
    (h : Scan n r = .ok row) : scanned n (r :: raws) = row :: scanned n raws := by
  unfold scanned
  rw [List.filterMap_cons, h]
  rfl

theorem scanned_append (n : Nat) (raws1 raws2 : List (List Cell)) :
    scanned n (raws1 ++ raws2) = scanned n raws1 ++ scanned n raws2 := by
  unfold scanned
  rw [List.filterMap_append]

/-- Rows that scan and fit the family are set on it one after the other, and the
loop goes on with the rows that follow. -/
theorem rowLoop_append (n i : Nat) (pre rest : List (List Cell)) (counters : List CounterVec)
    (cv : CounterVec) (hcv : counters[i]? = some cv)
    (hscan : ∀ r ∈ pre, ∃ row, Scan n r = .ok row)
    (harity : pre = [] ∨ n = cv.labelNames.length + 1) :
    rowLoop n i (pre ++ rest) counters
      = rowLoop n i rest (counters.set i (cv.withRows (scanned n pre))) := by
  induction pre generalizing counters cv with
  | nil =>
    rw [scanned_nil, withRows_nil, set_self_of_getElem? hcv]
    rfl
  | cons r pre ih =>
    obtain ⟨row, hrow⟩ := hscan r (List.mem_cons_self _ _)
    have hn : n = cv.labelNames.length + 1 := by
      rcases harity with h | h
      · cases h
      · exact h
    have hlen : row.labels.length = cv.labelNames.length := by
      have := Scan_labels_length hrow
      omega
    have hi : i < counters.length := (List.getElem?_eq_some.mp hcv).1
    rw [List.cons_append, rowLoop, hrow]
    simp only [hcv, CounterVec.WithLabelValuesSet, hlen, ne_eq, not_true_eq_false, if_false]
    rw [ih (counters.set i { cv with children := setChild row.labels row.value cv.children })
      { cv with children := setChild row.labels row.value cv.children }
      (List.getElem?_set_self hi) (fun r1 h1 => hscan r1 (List.mem_cons_of_mem _ h1))
      (Or.inr hn), List.set_set, scanned_cons_ok pre hrow]
    rfl

theorem rowLoop_done (n i : Nat) (raws : List (List Cell)) (counters : List CounterVec)
    (cv : CounterVec) (hcv : counters[i]? = some cv)
    (hscan : ∀ r ∈ raws, ∃ row, Scan n r = .ok row)
    (harity : raws = [] ∨ n = cv.labelNames.length + 1) :
    rowLoop n i raws counters = .done (counters.set i (cv.withRows (scanned n raws))) := by
  have := rowLoop_append n i raws [] counters cv hcv hscan harity
  rw [List.append_nil] at this
  rw [this]
  rfl

theorem rowLoop_failed (n i : Nat) (pre post : List (List Cell)) (bad : List Cell) (d : String)
    (counters : List CounterVec) (cv : CounterVec) (hcv : counters[i]? = some cv)
    (hscan : ∀ r ∈ pre, ∃ row, Scan n r = .ok row)
    (harity : pre = [] ∨ n = cv.labelNames.length + 1)
    (hbad : Scan n bad = .error d) :
    rowLoop n i (pre ++ bad :: post) counters
      = .failed (counters.set i (cv.withRows (scanned n pre))) d := by
  rw [rowLoop_append n i pre (bad :: post) counters cv hcv hscan harity, rowLoop, hbad]

/-- A row loop that ends without error has scanned every row and set it on a
family that takes it. -/
theorem rowLoop_done_inv (n i : Nat) (raws : List (List Cell)) (counters c1 : List CounterVec)
    (cv : CounterVec) (hcv : counters[i]? = some cv)
    (h : rowLoop n i raws counters = .done c1) :
    (∀ r ∈ raws, ∃ row, Scan n r = .ok row) ∧ (raws = [] ∨ n = cv.labelNames.length + 1) := by
  induction raws generalizing counters cv with
  | nil => exact ⟨fun r hr => (by cases hr), Or.inl rfl⟩
  | cons r raws ih =>
    rw [rowLoop] at h
    cases hrow : Scan n r with
    | error e =>
      rw [hrow] at h
      cases h
    | ok row =>
      rw [hrow] at h
      simp only [hcv] at h
      by_cases hlen : row.labels.length ≠ cv.labelNames.length
      · rw [CounterVec.WithLabelValuesSet, if_pos hlen] at h
        cases h
      · have hi : i < counters.length := (List.getElem?_eq_some.mp hcv).1
        rw [CounterVec.WithLabelValuesSet, if_neg hlen] at h
        have hrest := ih _ _ (List.getElem?_set_self hi) h
        have hn := Scan_labels_length hrow
        refine ⟨?_, Or.inr (by omega)⟩
        intro r1 h1
        rcases List.mem_cons.mp h1 with h1 | h1
        · rw [h1]
          exact ⟨row, hrow⟩
        · exact hrest.1 r1 h1

/-! ## The query loop -/

theorem rowsOf_eq {db : DB} {q : Query} {rs : ResultSet} {cols : List String}
    (hq : db.query q.SQL = .ok rs) (hcols : rs.columns = .ok cols) :
    rowsOf db q = scanned cols.length rs.rows := by
  unfold rowsOf
  rw [hq]
  simp only [hcols]

theorem getElem?_middle (pre post : List CounterVec) (cv : CounterVec) :
    (pre ++ cv :: post)[pre.length]? = some cv := by
  rw [List.getElem?_append_right (Nat.le_refl _)]
  simp

theorem set_middle (pre post : List CounterVec) (cv cv1 : CounterVec) :
    (pre ++ cv :: post).set pre.length cv1 = pre ++ cv1 :: post := by
  simp

/-- One turn of the query loop for a query that answers. -/
theorem collectLoop_step (db : DB) (q : Query) (qs : List Query) (i : Nat)
    (pre post : List CounterVec) (cv : CounterVec) (ch : List Metric) (ex : List String)
    (hi : i = pre.length) (h : Answers db q cv) :
    collectLoop db i (q :: qs) { counters := pre ++ cv :: post, ch := ch, executed := ex }
      = collectLoop db (i + 1) qs
          { counters := pre ++ cv.withRows (rowsOf db q) :: post,
            ch := ch ++ (cv.withRows (rowsOf db q)).Collect i,
            executed := ex ++ [q.SQL] } := by
  subst hi
  obtain ⟨rs, cols, hq, hcols, hne, hscan, harity⟩ := h
  have hlen : ¬ cols.length = 0 := fun h0 => hne (List.length_eq_zero.mp h0)
  rw [collectLoop]
  simp only [hq, hcols, if_neg hlen]
  rw [rowLoop_done cols.length pre.length rs.rows (pre ++ cv :: post) cv
    (getElem?_middle pre post cv) hscan harity, set_middle]
  simp only [getElem?_middle, rowsOf_eq hq hcols]


theorem refreshed_cons (db : DB) (q : Query) (qs : List Query) (cv : CounterVec)
    (cvs : List CounterVec) :
    refreshed db (q :: qs) (cv :: cvs) = cv.withRows (rowsOf db q) :: refreshed db qs cvs := rfl

theorem collectAll_cons (i : Nat) (cv : CounterVec) (cvs : List CounterVec) :
    collectAll i (cv :: cvs) = cv.Collect i ++ collectAll (i + 1) cvs := rfl

/-- The query loop over queries that all answer: each family is refreshed and
collected in turn, and the loop goes on with the queries that follow. -/
theorem collectLoop_answered (db : DB) (qs qs2 : List Query) (todo : List CounterVec)
    (hans : List.Forall₂ (Answers db) qs todo) :
    ∀ (i : Nat) (pre post : List CounterVec) (ch : List Metric) (ex : List String),
      i = pre.length →
      collectLoop db i (qs ++ qs2) { counters := pre ++ (todo ++ post), ch := ch, executed := ex }
        = collectLoop db (i + qs.length) qs2
            { counters := pre ++ (refreshed db qs todo ++ post),
              ch := ch ++ collectAll i (refreshed db qs todo),
              executed := ex ++ qs.map Query.SQL } := by
  induction hans with
  | nil =>
    intro i pre post ch ex _
    simp [refreshed, collectAll]
  | @cons q cv qs todo hq _ ih =>
    intro i pre post ch ex hi
    rw [List.cons_append, List.cons_append,
      collectLoop_step db q (qs ++ qs2) i pre (todo ++ post) cv ch ex hi hq]
    have h1 : pre ++ cv.withRows (rowsOf db q) :: (todo ++ post)
        = (pre ++ [cv.withRows (rowsOf db q)]) ++ (todo ++ post) := by simp
    rw [h1, ih (i + 1) (pre ++ [cv.withRows (rowsOf db q)]) post _ _ (by simp [hi])]
    simp [refreshed_cons, collectAll_cons, Nat.add_assoc, Nat.add_comm 1]

/-! ## Initialisation -/

/-- When every probe executes and reports at least one column, the loop of
`GetCounters` builds one family per query, in order. -/
theorem GetCounters_loop_ok (db : DB) (qs : List Query)
    (hq : ∀ q ∈ qs, ∃ rs col cols, db.query q.SQL = .ok rs ∧ rs.columns = .ok (col :: cols)) :
    ∃ fams, GetCounters.loop db qs = .ok fams ∧
      List.Forall₂ (fun q fam => ∃ rs cols, db.query q.SQL = .ok rs ∧ rs.columns = .ok cols ∧
        fam = NewCounterVec namespace_ q.Name q.Help (cols.drop 1)) qs fams := by
  induction qs with
  | nil => exact ⟨[], rfl, List.Forall₂.nil⟩
  | cons q qs ih =>
    obtain ⟨rs, col, cols, hrs, hcols⟩ := hq q (List.mem_cons_self _ _)
    obtain ⟨fams, hfams, hall⟩ := ih (fun q1 h1 => hq q1 (List.mem_cons_of_mem _ h1))
    refine ⟨NewCounterVec namespace_ q.Name q.Help cols :: fams, ?_, ?_⟩
    · rw [GetCounters.loop]
      simp only [hrs, hcols, hfams]
    · exact List.Forall₂.cons ⟨rs, col :: cols, hrs, hcols, rfl⟩ hall

theorem forall₂_getElem? {α β : Type} {R : α → β → Prop} {l1 : List α} {l2 : List β}
    (h : List.Forall₂ R l1 l2) (i : Nat) (a : α) (ha : l1[i]? = some a) :
    ∃ b, l2[i]? = some b ∧ R a b := by
  induction h generalizing i with
  | nil => simp at ha
  | @cons a1 b1 l1 l2 hab _ ih =>
    cases i with
    | zero =>
      simp at ha
      subst ha
      exact ⟨b1, by simp, hab⟩
    | succ i =>
      simp at ha
      obtain ⟨b, hb, hr⟩ := ih i ha
      exact ⟨b, by simpa using hb, hr⟩

/-- A probe that reports no column makes the loop of `GetCounters` panic. -/
theorem GetCounters_loop_panic (db : DB) (pre post : List Query) (q : Query) (rs : ResultSet)
    (hpre : ∀ p ∈ pre, ∃ rs col cols, db.query p.SQL = .ok rs ∧ rs.columns = .ok (col :: cols))
    (hq : db.query q.SQL = .ok rs) (hcols : rs.columns = .ok []) :
    GetCounters.loop db (pre ++ q :: post) = .panic := by
  induction pre with
  | nil =>
    rw [List.nil_append, GetCounters.loop]
    simp only [hq, hcols]
  | cons p pre ih =>
    obtain ⟨rs1, col, cols, hrs, hcols1⟩ := hpre p (List.mem_cons_self _ _)
    rw [List.cons_append, GetCounters.loop]
    simp only [hrs, hcols1, ih (fun p1 h1 => hpre p1 (List.mem_cons_of_mem _ h1))]

theorem GetCounters_loop_err (db : DB) (pre post : List Query) (q : Query) (d : String)
    (hpre : ∀ p ∈ pre, ∃ rs col cols, db.query p.SQL = .ok rs ∧ rs.columns = .ok (col :: cols))
    (hq : db.query q.SQL = .error d) :
    GetCounters.loop db (pre ++ q :: post) = .err d := by
  induction pre with
  | nil =>
    rw [List.nil_append, GetCounters.loop]
    simp only [hq]
  | cons p pre ih =>
    obtain ⟨rs, col, cols, hrs, hcols⟩ := hpre p (List.mem_cons_self _ _)
    rw [List.cons_append, GetCounters.loop]
    simp only [hrs, hcols, ih (fun p1 h1 => hpre p1 (List.mem_cons_of_mem _ h1))]

/-! ## The query loop: failures and what a completed loop tells -/

theorem rowLoop_none (n i : Nat) (raws : List (List Cell)) (counters c1 : List CounterVec)
    (hcv : counters[i]? = none) (h : rowLoop n i raws counters = .done c1) : c1 = counters := by
  cases raws with
  | nil =>
    rw [rowLoop] at h
    cases h
    rfl
  | cons r raws =>
    rw [rowLoop] at h
    cases hrow : Scan n r with
    | error e =>
      rw [hrow] at h
      cases h
    | ok row =>
      rw [hrow] at h
      simp only [hcv] at h
      cases h

/-- A query whose execution fails ends the loop at once. -/
theorem collectLoop_query_error (db : DB) (q : Query) (qs : List Query) (i : Nat) (s : Scrape)
    (d : String) (h : db.query q.SQL = .error d) :
    collectLoop db i (q :: qs) s = .failed { s with executed := s.executed ++ [q.SQL] } d := by
  rw [collectLoop]
  simp only [h]

/-- A row that does not scan ends the loop at once; the rows before it have been
set on the family of the query. -/
theorem collectLoop_scan_error (db : DB) (q : Query) (qs : List Query) (i : Nat)
    (pre post : List CounterVec) (cv : CounterVec) (ch : List Metric) (ex : List String)
    (rs : ResultSet) (cols : List String) (good rest : List (List Cell)) (bad : List Cell)
    (d : String) (hi : i = pre.length)
    (hq : db.query q.SQL = .ok rs) (hcols : rs.columns = .ok cols) (hne : cols ≠ [])
    (hrows : rs.rows = good ++ bad :: rest)
    (hgood : ∀ r ∈ good, ∃ row, Scan cols.length r = .ok row)
    (harity : good = [] ∨ cols.length = cv.labelNames.length + 1)
    (hbad : Scan cols.length bad = .error d) :
    collectLoop db i (q :: qs) { counters := pre ++ cv :: post, ch := ch, executed := ex }
      = .failed { counters := pre ++ cv.withRows (scanned cols.length good) :: post,
                  ch := ch, executed := ex ++ [q.SQL] } d := by
  subst hi
  have hlen : ¬ cols.length = 0 := fun h0 => hne (List.length_eq_zero.mp h0)
  rw [collectLoop]
  simp only [hq, hcols, if_neg hlen, hrows]
  rw [rowLoop_failed cols.length pre.length good rest bad d (pre ++ cv :: post) cv
    (getElem?_middle pre post cv) hgood harity hbad, set_middle]

theorem Answers_withRows {db : DB} {q : Query} {cv : CounterVec} (rows : List Row)
    (h : Answers db q cv) : Answers db q (cv.withRows rows) := h

theorem refreshed_idem (db : DB) (qs : List Query) (todo : List CounterVec)
    (hans : List.Forall₂ (Answers db) qs todo) :
    List.Forall₂ (Answers db) qs (refreshed db qs todo) ∧
      refreshed db qs (refreshed db qs todo) = refreshed db qs todo := by
  induction hans with
  | nil => exact ⟨List.Forall₂.nil, rfl⟩
  | @cons q cv qs todo hq _ ih =>
    refine ⟨List.Forall₂.cons (Answers_withRows _ hq) ih.1, ?_⟩
    rw [refreshed_cons, refreshed_cons, ih.2]
    show ({ cv with children := setRows (rowsOf db q) (setRows (rowsOf db q) cv.children) }
      : CounterVec) :: _ = _
    rw [setRows_idem]
    rfl

/-- A query loop that ends without error has met, for each query, a family that
the query answers. -/
theorem collectLoop_done_inv (db : DB) (qs : List Query) :
    ∀ (i : Nat) (pre rest : List CounterVec) (ch : List Metric) (ex : List String) (s1 : Scrape),
      i = pre.length →
      collectLoop db i qs { counters := pre ++ rest, ch := ch, executed := ex } = .done s1 →
      ∃ todo post, rest = todo ++ post ∧ List.Forall₂ (Answers db) qs todo := by
  induction qs with
  | nil =>
    intro i pre rest ch ex s1 _ _
    exact ⟨[], rest, rfl, List.Forall₂.nil⟩
  | cons q qs ih =>
    intro i pre rest ch ex s1 hi h
    have hans : ∃ cv rest1, rest = cv :: rest1 ∧ Answers db q cv := by
      have h0 := h
      rw [collectLoop] at h0
      cases hq : db.query q.SQL with
      | error e =>
        simp only [hq] at h0
        cases h0
      | ok rs =>
        cases hcols : rs.columns with
        | error e =>
          simp only [hq, hcols] at h0
          cases h0
        | ok cols =>
          by_cases hlen : cols.length = 0
          · simp only [hq, hcols, if_pos hlen] at h0
            cases h0
          · simp only [hq, hcols, if_neg hlen] at h0
            cases hloop : rowLoop cols.length i rs.rows (pre ++ rest) with
            | panic =>
              simp only [hloop] at h0
              cases h0
            | failed c e =>
              simp only [hloop] at h0
              cases h0
            | done c =>
              simp only [hloop] at h0
              cases rest with
              | nil =>
                have hnone : (pre ++ ([] : List CounterVec))[i]? = none := by
                  rw [hi]
                  simp
                have hc := rowLoop_none _ _ _ _ _ hnone hloop
                rw [hc, hnone] at h0
                cases h0
              | cons cv rest1 =>
                have hcv : (pre ++ cv :: rest1)[i]? = some cv := by
                  rw [hi]
                  exact getElem?_middle pre rest1 cv
                obtain ⟨hscan, harity⟩ := rowLoop_done_inv _ _ _ _ _ cv hcv hloop
                exact ⟨cv, rest1, rfl, rs, cols, hq, hcols,
                  fun h0 => hlen (by rw [h0]; rfl), hscan, harity⟩
    obtain ⟨cv, rest1, hrest, hq⟩ := hans
    subst hrest
    rw [collectLoop_step db q qs i pre rest1 cv ch ex hi hq] at h
    have h1 : pre ++ cv.withRows (rowsOf db q) :: rest1
        = (pre ++ [cv.withRows (rowsOf db q)]) ++ rest1 := by simp
    rw [h1] at h
    obtain ⟨todo, post, hrest1, hall⟩ :=
      ih (i + 1) (pre ++ [cv.withRows (rowsOf db q)]) rest1 _ _ s1 (by simp [hi]) h
    exact ⟨cv :: todo, post, by rw [hrest1]; rfl, List.Forall₂.cons hq hall⟩

/-! ## Lists of families and of metrics -/

theorem forall₂_take_of_getElem? (db : DB) (k : Nat) :
    ∀ (qs : List Query) (cvs : List CounterVec), k ≤ qs.length → k ≤ cvs.length →
      (∀ (j : Nat) (qj : Query) (cvj : CounterVec), j < k → qs[j]? = some qj →
        cvs[j]? = some cvj → Answers db qj cvj) →
      List.Forall₂ (Answers db) (qs.take k) (cvs.take k) := by
  induction k with
  | zero =>
    intro qs cvs _ _ _
    simp
  | succ k ih =>
    intro qs cvs hq hc h
    cases qs with
    | nil => simp at hq
    | cons q qs =>
      cases cvs with
      | nil => simp at hc
      | cons cv cvs =>
        rw [List.take_succ_cons, List.take_succ_cons]
        refine List.Forall₂.cons (h 0 q cv (Nat.succ_pos k) (by simp) (by simp)) ?_
        refine ih qs cvs (by simpa using hq) (by simpa using hc) ?_
        intro j qj cvj hj hqj hcvj
        exact h (j + 1) qj cvj (Nat.succ_lt_succ hj) (by simpa using hqj) (by simpa using hcvj)

theorem refreshed_getElem? (db : DB) :
    ∀ (qs : List Query) (cvs : List CounterVec) (j : Nat) (q : Query) (cv : CounterVec),
      qs[j]? = some q → cvs[j]? = some cv →
      (refreshed db qs cvs)[j]? = some (cv.withRows (rowsOf db q)) := by
  intro qs
  induction qs with
  | nil =>
    intro cvs j q cv hq _
    simp at hq
  | cons q0 qs ih =>
    intro cvs j q cv hq hcv
    cases cvs with
    | nil => simp at hcv
    | cons cv0 cvs =>
      rw [refreshed_cons]
      cases j with
      | zero =>
        simp at hq hcv
        subst hq
        subst hcv
        simp
      | succ j =>
        simp at hq hcv
        simpa using ih cvs j q cv hq hcv

theorem refreshed_length (db : DB) (qs : List Query) (cvs : List CounterVec) :
    (refreshed db qs cvs).length = min qs.length cvs.length := by
  unfold refreshed
  simp

theorem samplesOf_append (i : Nat) (ms1 ms2 : List Metric) :
    samplesOf i (ms1 ++ ms2) = samplesOf i ms1 ++ samplesOf i ms2 := by
  unfold samplesOf
  rw [List.filter_append]

theorem samplesOf_Collect_self (i : Nat) (cv : CounterVec) :
    samplesOf i (cv.Collect i) = cv.Collect i := by
  unfold samplesOf CounterVec.Collect
  rw [List.filter_eq_self]
  intro m hm
  obtain ⟨p, _, hp⟩ := List.mem_map.mp hm
  subst hp
  simp

theorem samplesOf_Collect_ne (i j : Nat) (cv : CounterVec) (h : j ≠ i) :
    samplesOf i (cv.Collect j) = [] := by
  unfold samplesOf CounterVec.Collect
  rw [List.filter_eq_nil_iff]
  intro m hm
  obtain ⟨p, _, hp⟩ := List.mem_map.mp hm
  subst hp
  simp [h]

theorem samplesOf_collectAll_lt (i : Nat) (cvs : List CounterVec) :
    ∀ (s : Nat), i < s → samplesOf i (collectAll s cvs) = [] := by
  induction cvs with
  | nil =>
    intro s _
    rfl
  | cons cv cvs ih =>
    intro s hs
    rw [collectAll_cons, samplesOf_append, samplesOf_Collect_ne i s cv (by omega),
      ih (s + 1) (by omega)]
    rfl

theorem samplesOf_collectAll (cvs : List CounterVec) :
    ∀ (s j : Nat) (cv : CounterVec), cvs[j]? = some cv →
      samplesOf (s + j) (collectAll s cvs) = cv.Collect (s + j) := by
  induction cvs with
  | nil =>
    intro s j cv h
    simp at h
  | cons cv0 cvs ih =>
    intro s j cv h
    rw [collectAll_cons, samplesOf_append]
    cases j with
    | zero =>
      simp at h
      subst h
      rw [Nat.add_zero, samplesOf_Collect_self, samplesOf_collectAll_lt s cvs (s + 1) (by omega)]
      simp
    | succ j =>
      simp at h
      rw [samplesOf_Collect_ne (s + (j + 1)) s cv0 (by omega)]
      have := ih (s + 1) j cv h
      rw [show s + 1 + j = s + (j + 1) by omega] at this
      rw [this]
      rfl

theorem samplesOf_collectAll_ge (cvs : List CounterVec) :
    ∀ (s j : Nat), cvs.length ≤ j → samplesOf (s + j) (collectAll s cvs) = [] := by
  induction cvs with
  | nil =>
    intro s j _
    rfl
  | cons cv0 cvs ih =>
    intro s j h
    rw [collectAll_cons, samplesOf_append]
    cases j with
    | zero => simp at h
    | succ j =>
      rw [samplesOf_Collect_ne (s + (j + 1)) s cv0 (by omega)]
      have := ih (s + 1) j (by simpa using h)
      rw [show s + 1 + j = s + (j + 1) by omega] at this
      rw [this]
      rfl

theorem scanned_map_ok (n : Nat) (raws : List (List Cell))
    (h : ∀ r ∈ raws, ∃ row, Scan n r = .ok row) :
    raws.map (Scan n) = (scanned n raws).map Except.ok := by
  induction raws with
  | nil => rfl
  | cons r raws ih =>
    obtain ⟨row, hrow⟩ := h r (List.mem_cons_self _ _)
    rw [scanned_cons_ok raws hrow, List.map_cons, List.map_cons, hrow,
      ih (fun r1 h1 => h r1 (List.mem_cons_of_mem _ h1))]

theorem collect_eq (e : Exporter) (db : DB) (hping : db.ping = none) :
    e.collect db
      = collectLoop db 0 e.config.Queries { counters := e.counters, ch := [], executed := [] } := by
  unfold Exporter.collect
  simp only [hping]

/-! ## From the statements' hypotheses to the loops -/

theorem scanned_of_map_ok (n : Nat) (raws : List (List Cell)) :
    ∀ (rows : List Row), raws.map (Scan n) = rows.map Except.ok →
      (∀ r ∈ raws, ∃ row, Scan n r = .ok row) ∧ scanned n raws = rows := by
  induction raws with
  | nil =>
    intro rows h
    cases rows with
    | nil => exact ⟨fun r hr => (by cases hr), rfl⟩
    | cons row rows => simp at h
  | cons r raws ih =>
    intro rows h
    cases rows with
    | nil => simp at h
    | cons row rows =>
      rw [List.map_cons, List.map_cons, List.cons.injEq] at h
      obtain ⟨ih1, ih2⟩ := ih rows h.2
      refine ⟨?_, ?_⟩
      · intro r1 h1
        rcases List.mem_cons.mp h1 with h1 | h1
        · rw [h1]
          exact ⟨row, h.1⟩
        · exact ih1 r1 h1
      · rw [scanned_cons_ok raws h.1, ih2]

theorem mem_setRows_last (pre post : List Row) (r : Row) (l : List (List String × Float64))
    (hlast : ∀ r1 ∈ post, r1.labels ≠ r.labels) :
    (r.labels, r.value) ∈ setRows (pre ++ r :: post) l := by
  obtain ⟨p, hp, hk⟩ := setRows_has_key (pre ++ r :: post) l r (by simp)
  have hv := setRows_last_value pre post r l hlast hp hk
  have : p = (r.labels, r.value) := Prod.ext hk hv
  rw [← this]
  exact hp

theorem mem_Collect_iff (cv : CounterVec) (i : Nat) (lvs : List String) (v : Float64) :
    Metric.sample i lvs v ∈ cv.Collect i ↔ (lvs, v) ∈ cv.children := by
  unfold CounterVec.Collect
  constructor
  · intro h
    obtain ⟨p, hp, heq⟩ := List.mem_map.mp h
    cases heq
    exact hp
  · intro h
    exact List.mem_map.mpr ⟨(lvs, v), h, rfl⟩

theorem mem_of_mem_samplesOf {i : Nat} {ms : List Metric} {m : Metric}
    (h : m ∈ samplesOf i ms) : m ∈ ms := by
  unfold samplesOf at h
  exact List.mem_of_mem_filter h

theorem mem_samplesOf_iff (i : Nat) (ms : List Metric) (lvs : List String) (v : Float64) :
    Metric.sample i lvs v ∈ samplesOf i ms ↔ Metric.sample i lvs v ∈ ms := by
  unfold samplesOf
  rw [List.mem_filter]
  simp

theorem split_at_getElem? {α : Type} {l : List α} {k : Nat} {a : α} (h : l[k]? = some a) :
    l = l.take k ++ a :: l.drop (k + 1) ∧ k < l.length := by
  obtain ⟨hk, ha⟩ := List.getElem?_eq_some.mp h
  refine ⟨?_, hk⟩
  conv_lhs => rw [← List.take_append_drop k l, List.drop_eq_getElem_cons hk, ha]

theorem samplesOf_failure (i n : Nat) : samplesOf i [Metric.scrapeFailures n] = [] := rfl

/-- The query loop over queries that answer, up to a query whose execution
fails. -/
theorem collectLoop_fail_at (db : DB) (qs1 qs2 : List Query) (q : Query)
    (todo post : List CounterVec) (d : String)
    (hans : List.Forall₂ (Answers db) qs1 todo) (hfail : db.query q.SQL = .error d) :
    collectLoop db 0 (qs1 ++ q :: qs2) { counters := todo ++ post, ch := [], executed := [] }
      = .failed { counters := refreshed db qs1 todo ++ post,
                  ch := collectAll 0 (refreshed db qs1 todo),
                  executed := qs1.map Query.SQL ++ [q.SQL] } d := by
  have h := collectLoop_answered db qs1 (q :: qs2) todo hans 0 [] post [] [] rfl
  simp only [List.nil_append, Nat.zero_add] at h
  rw [h, collectLoop_query_error db q qs2 qs1.length _ d hfail]

/-- The query loop over queries that all answer. -/
theorem collectLoop_all (db : DB) (qs : List Query) (todo post : List CounterVec)
    (hans : List.Forall₂ (Answers db) qs todo) :
    collectLoop db 0 qs { counters := todo ++ post, ch := [], executed := [] }
      = .done { counters := refreshed db qs todo ++ post,
                ch := collectAll 0 (refreshed db qs todo),
                executed := qs.map Query.SQL } := by
  have h := collectLoop_answered db qs [] todo hans 0 [] post [] [] rfl
  simp only [List.nil_append, Nat.zero_add, List.append_nil] at h
  rw [h, collectLoop]

/-- The query loop over queries that answer, up to a query with a row that does
not scan. -/
theorem collectLoop_scan_fail_at (db : DB) (qs1 qs2 : List Query) (q : Query)
    (todo post : List CounterVec) (cv : CounterVec) (rs : ResultSet) (cols : List String)
    (good rest : List (List Cell)) (bad : List Cell) (d : String)
    (hans : List.Forall₂ (Answers db) qs1 todo)
    (hq : db.query q.SQL = .ok rs) (hcols : rs.columns = .ok cols) (hne : cols ≠ [])
    (hrows : rs.rows = good ++ bad :: rest)
    (hgood : ∀ r ∈ good, ∃ row, Scan cols.length r = .ok row)
    (harity : good = [] ∨ cols.length = cv.labelNames.length + 1)
    (hbad : Scan cols.length bad = .error d) :
    collectLoop db 0 (qs1 ++ q :: qs2)
        { counters := todo ++ cv :: post, ch := [], executed := [] }
      = .failed { counters := refreshed db qs1 todo
                    ++ cv.withRows (scanned cols.length good) :: post,
                  ch := collectAll 0 (refreshed db qs1 todo),
                  executed := qs1.map Query.SQL ++ [q.SQL] } d := by
  have h := collectLoop_answered db qs1 (q :: qs2) todo hans 0 [] (cv :: post) [] [] rfl
  simp only [List.nil_append, Nat.zero_add] at h
  have hlen : qs1.length = (refreshed db qs1 todo).length := by
    rw [refreshed_length, hans.length_eq, Nat.min_self]
  rw [h, collectLoop_scan_error db q qs2 qs1.length (refreshed db qs1 todo) post cv _ _ rs cols
    good rest bad d hlen hq hcols hne hrows hgood harity hbad]

theorem forall₂_of_getElem? (db : DB) (qs : List Query) (cvs : List CounterVec)
    (hlen : cvs.length = qs.length)
    (h : ∀ (j : Nat) (qj : Query) (cvj : CounterVec), qs[j]? = some qj →
      cvs[j]? = some cvj → Answers db qj cvj) :
    List.Forall₂ (Answers db) qs cvs := by
  have := forall₂_take_of_getElem? db qs.length qs cvs (Nat.le_refl _) (by omega)
    (fun j qj cvj _ hq hc => h j qj cvj hq hc)
  rw [List.take_length] at this
  rw [← hlen, List.take_length] at this
  exact this

/-- The database `exDB` answers `exQuery` for every family with one label name. -/
theorem exDB_answers (cv : CounterVec) (h : cv.labelNames.length = 1) :
    Answers exDB exQuery cv := by
  refine ⟨exStats, ["count", "region"], rfl, rfl, by simp, ?_, Or.inr (by rw [h]; rfl)⟩
  intro r hr
  simp only [exStats, List.mem_cons, List.mem_singleton, List.not_mem_nil, or_false] at hr
  rcases hr with h1 | h1 <;> subst h1 <;> exact ⟨_, rfl⟩

/-! ## What a scanned row holds -/

theorem scanLabels_map {cs : List Cell} {ls : List String} (h : scanLabels cs = .ok ls) :
    cs.map Cell.asString = ls.map Except.ok := by
  induction cs generalizing ls with
  | nil =>
    simp [scanLabels] at h
    subst h
    rfl
  | cons c cs ih =>
    rw [scanLabels] at h
    cases hc : c.asString with
    | error e =>
      rw [hc] at h
      cases h
    | ok s =>
      cases hss : scanLabels cs with
      | error e =>
        rw [hc, hss] at h
        cases h
      | ok ss =>
        rw [hc, hss] at h
        cases h
        rw [List.map_cons, List.map_cons, hc, ih hss]

/-- A row that scans is read column by column: the value is the `float64` of the
first column, the labels are the texts of the columns after it, in column
order, and the columns are as many as the destinations. -/
theorem Scan_reads_cells {n : Nat} {raw : List Cell} {row : Row} (h : Scan n raw = .ok row) :
    ∃ c cs, raw = c :: cs ∧ cs.length + 1 = n ∧ c.asFloat64 = .ok row.value ∧
      cs.map Cell.asString = row.labels.map Except.ok := by
  cases raw with
  | nil => cases h
  | cons c cs =>
    rw [Scan] at h
    by_cases hn : cs.length + 1 ≠ n
    · rw [if_pos hn] at h
      cases h
    · rw [if_neg hn] at h
      cases hv : c.asFloat64 with
      | error e =>
        rw [hv] at h
        cases h
      | ok v =>
        cases hls : scanLabels cs with
        | error e =>
          rw [hv, hls] at h
          cases h
        | ok ls =>
          rw [hv, hls] at h
          cases h
          exact ⟨c, cs, rfl, by simpa using hn, hv, scanLabels_map hls⟩

theorem scanned_reads_cells (n : Nat) (raws : List (List Cell))
    (h : ∀ r ∈ raws, ∃ row, Scan n r = .ok row) :
    List.Forall₂ (fun raw row => ∃ c cs, raw = c :: cs ∧ cs.length + 1 = n ∧
      c.asFloat64 = .ok row.value ∧ cs.map Cell.asString = row.labels.map Except.ok)
      raws (scanned n raws) := by
  induction raws with
  | nil => exact List.Forall₂.nil
  | cons r raws ih =>
    obtain ⟨row, hrow⟩ := h r (List.mem_cons_self _ _)
    rw [scanned_cons_ok raws hrow]
    exact List.Forall₂.cons (Scan_reads_cells hrow)
      (ih (fun r1 h1 => h r1 (List.mem_cons_of_mem _ h1)))

theorem scanned_samples_read_cells (n i : Nat) (raws : List (List Cell))
    (h : ∀ r ∈ raws, ∃ row, Scan n r = .ok row) :
    List.Forall₂ (fun raw m => ∃ c cs v ls, raw = c :: cs ∧ cs.length + 1 = n ∧
      c.asFloat64 = .ok v ∧ cs.map Cell.asString = ls.map Except.ok ∧
      m = Metric.sample i ls v)
      raws ((scanned n raws).map (fun row => Metric.sample i row.labels row.value)) := by
  induction raws with
  | nil => exact List.Forall₂.nil
  | cons r raws ih =>
    obtain ⟨row, hrow⟩ := h r (List.mem_cons_self _ _)
    rw [scanned_cons_ok raws hrow, List.map_cons]
    obtain ⟨c, cs, h1, h2, h3, h4⟩ := Scan_reads_cells hrow
    exact List.Forall₂.cons ⟨c, cs, row.value, row.labels, h1, h2, h3, h4, rfl⟩
      (ih (fun r1 h1 => h r1 (List.mem_cons_of_mem _ h1)))

/-! ## The claims -/

/-! ### C1: initialisation builds one family per query -/

/-- C1: when the initial ping succeeds and every configured query executes and
reports a column list with at least one column, `GetCounters` and `NewExporter`
succeed and return exactly one metric family per configured query, in config
order: family `i` carries the name and help of query `i`, its label names are
the probe's column list without its first column, in order, and it has no
observation yet.  The rows of the probe play no part, so this holds also when
the probe returns no row. -/
theorem C1_initialisation_one_family_per_query (config : Config) (db : DB)
    (hping : db.ping = none)
    (hq : ∀ q ∈ config.Queries,
      ∃ rs col cols, db.query q.SQL = .ok rs ∧ rs.columns = .ok (col :: cols)) :
    ∃ fams, GetCounters config db = .ok fams ∧
      NewExporter config db = .ok { config := config, scrapeFailures := 0, counters := fams } ∧
      fams.length = config.Queries.length ∧
      ∀ (i : Nat) (q : Query), config.Queries[i]? = some q →
        ∃ (fam : CounterVec) (rs : ResultSet) (cols : List String),
          fams[i]? = some fam ∧ db.query q.SQL = .ok rs ∧ rs.columns = .ok cols ∧
          fam.Namespace = namespace_ ∧ fam.Name = q.Name ∧ fam.Help = q.Help ∧
          fam.labelNames = cols.drop 1 ∧ fam.children = [] := by
  obtain ⟨fams, hfams, hall⟩ := GetCounters_loop_ok db config.Queries hq
  have hget : GetCounters config db = .ok fams := by
    unfold GetCounters
    simp only [hping, hfams]
  refine ⟨fams, hget, ?_, hall.length_eq.symm, ?_⟩
  · unfold NewExporter
    simp only [hget]
  · intro i q hi
    obtain ⟨fam, hfam, rs, cols, hrs, hcols, heq⟩ := forall₂_getElem? hall i q hi
    subst heq
    exact ⟨_, rs, cols, hfam, hrs, hcols, rfl, rfl, rfl, rfl, rfl⟩

/-- C1 at the end-to-end example: one family `stats` with the label `region`. -/
theorem C1_initialisation_witness :
    ∃ fams, GetCounters exConfig exDB = .ok fams ∧
      NewExporter exConfig exDB
        = .ok { config := exConfig, scrapeFailures := 0, counters := fams } ∧
      fams.length = exConfig.Queries.length ∧
      ∀ (i : Nat) (q : Query), exConfig.Queries[i]? = some q →
        ∃ (fam : CounterVec) (rs : ResultSet) (cols : List String),
          fams[i]? = some fam ∧ exDB.query q.SQL = .ok rs ∧ rs.columns = .ok cols ∧
          fam.Namespace = namespace_ ∧ fam.Name = q.Name ∧ fam.Help = q.Help ∧
          fam.labelNames = cols.drop 1 ∧ fam.children = [] :=
  C1_initialisation_one_family_per_query exConfig exDB rfl (by
    intro q hq
    simp only [exConfig, List.mem_singleton] at hq
    subst hq
    exact ⟨exStats, "count", ["region"], rfl, rfl⟩)

/-! ### C2: what a successful cycle sends -/

/-- C2 as stated fails in three ways.  A family that holds an observation from
an earlier cycle sends it again: two rows, three observations.  Two rows with
the same label tuple share one child: two rows, one observation.  And a query
that comes back with one column more than its family has label names makes
`WithLabelValues` panic, although ping, query and scan succeed: nothing is sent. -/
theorem C2_not_one_observation_per_row :
    (exDB.ping = none ∧ rowsOf exDB exQuery
        = [{ value := ⟨5⟩, labels := ["us"] }, { value := ⟨7⟩, labels := ["eu"] }] ∧
      ∃ r, exExporterStale.Collect exDB = some r ∧
        r.exporter.scrapeFailures = exExporterStale.scrapeFailures ∧
        samplesOf 0 r.emitted = [Metric.sample 0 ["ap"] ⟨1⟩, Metric.sample 0 ["us"] ⟨5⟩,
          Metric.sample 0 ["eu"] ⟨7⟩] ∧
        (samplesOf 0 r.emitted).length ≠ (rowsOf exDB exQuery).length) ∧
    (exDBDup.ping = none ∧ rowsOf exDBDup exQuery
        = [{ value := ⟨5⟩, labels := ["us"] }, { value := ⟨7⟩, labels := ["us"] }] ∧
      ∃ r, exExporter.Collect exDBDup = some r ∧
        r.exporter.scrapeFailures = exExporter.scrapeFailures ∧
        samplesOf 0 r.emitted = [Metric.sample 0 ["us"] ⟨7⟩] ∧
        (samplesOf 0 r.emitted).length ≠ (rowsOf exDBDup exQuery).length) ∧
    (exDBWide.ping = none ∧
      (∃ rs, exDBWide.query exQuery.SQL = .ok rs ∧
        rs.columns = .ok ["count", "region", "zone"] ∧
        rs.rows.map (Scan 3) = [.ok { value := ⟨5⟩, labels := ["us", "a"] }]) ∧
      exExporter.counters.map CounterVec.labelNames = [["region"]] ∧
      exExporter.Collect exDBWide = none) := by
  refine ⟨⟨rfl, rfl, _, rfl, rfl, rfl, ?_⟩, ⟨rfl, rfl, _, rfl, rfl, rfl, ?_⟩,
    ⟨rfl, ⟨_, rfl, rfl, rfl⟩, rfl, rfl⟩⟩
  · decide
  · decide

/-- C2, amended: when there is one family per query, the ping succeeds and every
query answers, `Collect` returns without counting a failure, having executed
every query and sent, for each query `i`, every observation of family `i` as it
stands after this cycle's rows were set on it: for a label tuple that rows
carry, the value of the last such row and no other; an observation of an
earlier cycle whose tuple no row carries, once more.  The rows are read column
by column: the value of a row is the `float64` of its first column, its label
tuple the texts of its columns `1..m`, in column order.  When family `i` had no
observation before the call and the rows of query `i` have pairwise distinct
label tuples, the observations sent for family `i` are exactly one per result
row: as many as the query has rows, the observation of a row having the texts
of its columns `1..m`, in column order, as label tuple and the `float64` of its
first column as value. -/
theorem C2_observations_per_row (e : Exporter) (db : DB)
    (hwf : e.counters.length = e.config.Queries.length)
    (hping : db.ping = none)
    (hall : ∀ (j : Nat) (qj : Query) (cvj : CounterVec),
      e.config.Queries[j]? = some qj → e.counters[j]? = some cvj → Answers db qj cvj) :
    ∃ r, e.Collect db = some r ∧
      r.exporter.scrapeFailures = e.scrapeFailures ∧
      r.executed = e.config.Queries.map Query.SQL ∧
      r.emitted = collectAll 0 r.exporter.counters ∧
      ∀ (i : Nat) (q : Query) (cv : CounterVec),
        e.config.Queries[i]? = some q → e.counters[i]? = some cv →
        r.exporter.counters[i]? = some (cv.withRows (rowsOf db q)) ∧
        samplesOf i r.emitted = (cv.withRows (rowsOf db q)).Collect i ∧
        (∀ (pre post : List Row) (row : Row), rowsOf db q = pre ++ row :: post →
          (∀ r1 ∈ post, r1.labels ≠ row.labels) →
          Metric.sample i row.labels row.value ∈ r.emitted ∧
          ∀ v, Metric.sample i row.labels v ∈ r.emitted → v = row.value) ∧
        (∀ p ∈ cv.children, (∀ row ∈ rowsOf db q, row.labels ≠ p.1) →
          Metric.sample i p.1 p.2 ∈ r.emitted) ∧
        (∃ rs cols, db.query q.SQL = .ok rs ∧ rs.columns = .ok cols ∧
          List.Forall₂ (fun raw row => ∃ c cs, raw = c :: cs ∧ cs.length + 1 = cols.length ∧
            c.asFloat64 = .ok row.value ∧ cs.map Cell.asString = row.labels.map Except.ok)
            rs.rows (rowsOf db q)) ∧
        (cv.children = [] → ((rowsOf db q).map Row.labels).Nodup →
          (samplesOf i r.emitted).Perm
            ((rowsOf db q).map (fun row => Metric.sample i row.labels row.value)) ∧
          ∃ rs cols, db.query q.SQL = .ok rs ∧ rs.columns = .ok cols ∧
            rs.rows.map (Scan cols.length) = (rowsOf db q).map Except.ok ∧
            (samplesOf i r.emitted).length = rs.rows.length ∧
            ∃ ms, (samplesOf i r.emitted).Perm ms ∧
              List.Forall₂ (fun raw m => ∃ c cs v ls, raw = c :: cs ∧
                cs.length + 1 = cols.length ∧ c.asFloat64 = .ok v ∧
                cs.map Cell.asString = ls.map Except.ok ∧ m = Metric.sample i ls v)
                rs.rows ms) := by
  have hF := forall₂_of_getElem? db e.config.Queries e.counters hwf hall
  have hloop := collectLoop_all db e.config.Queries e.counters [] hF
  rw [List.append_nil, List.append_nil] at hloop
  refine ⟨{ exporter := { e with counters := refreshed db e.config.Queries e.counters },
            emitted := collectAll 0 (refreshed db e.config.Queries e.counters),
            executed := e.config.Queries.map Query.SQL }, ?_, rfl, rfl, rfl, ?_⟩
  · unfold Exporter.Collect
    rw [collect_eq e db hping, hloop]
  · intro i q cv hq hcv
    have hget := refreshed_getElem? db e.config.Queries e.counters i q cv hq hcv
    have hs : samplesOf i (collectAll 0 (refreshed db e.config.Queries e.counters))
        = (cv.withRows (rowsOf db q)).Collect i := by
      have := samplesOf_collectAll _ 0 i _ hget
      rw [Nat.zero_add] at this
      exact this
    refine ⟨hget, hs, ?_, ?_, ?_, ?_⟩
    · intro pre post row hsplit hlast
      refine ⟨?_, ?_⟩
      · apply mem_of_mem_samplesOf (i := i)
        rw [hs, mem_Collect_iff]
        show (row.labels, row.value) ∈ setRows (rowsOf db q) cv.children
        rw [hsplit]
        exact mem_setRows_last pre post row cv.children hlast
      · intro v hv
        have hv1 := (mem_samplesOf_iff i _ row.labels v).mpr hv
        rw [hs, mem_Collect_iff] at hv1
        have hv2 : (row.labels, v) ∈ setRows (rowsOf db q) cv.children := hv1
        rw [hsplit] at hv2
        exact setRows_last_value pre post row cv.children hlast hv2 rfl
    · intro p hp hnone
      apply mem_of_mem_samplesOf (i := i)
      rw [hs, mem_Collect_iff]
      show (p.1, p.2) ∈ setRows (rowsOf db q) cv.children
      exact (mem_setRows_of_ne (rowsOf db q) hnone).mpr hp
    · obtain ⟨rs, cols, hrs, hcols, _, hscan, _⟩ := hall i q cv hq hcv
      refine ⟨rs, cols, hrs, hcols, ?_⟩
      rw [rowsOf_eq hrs hcols]
      exact scanned_reads_cells cols.length rs.rows hscan
    intro hempty hnodup
    have heq : samplesOf i (collectAll 0 (refreshed db e.config.Queries e.counters))
        = (rowsOf db q).map (fun row => Metric.sample i row.labels row.value) := by
      rw [hs]
      show (setRows (rowsOf db q) cv.children).map _ = _
      rw [hempty, setRows_fresh (rowsOf db q) [] (fun r _ p hp => by cases hp) hnodup,
        List.nil_append, List.map_map]
      rfl
    obtain ⟨rs, cols, hrs, hcols, _, hscan, _⟩ := hall i q cv hq hcv
    refine ⟨by rw [heq], rs, cols, hrs, hcols, ?_, ?_, ?_⟩
    · rw [rowsOf_eq hrs hcols]
      exact scanned_map_ok cols.length rs.rows hscan
    · show (samplesOf i (collectAll 0 (refreshed db e.config.Queries e.counters))).length = _
      rw [heq, List.length_map]
      have := congrArg List.length (scanned_map_ok cols.length rs.rows hscan)
      rw [List.length_map, List.length_map] at this
      rw [rowsOf_eq hrs hcols, this]
    · refine ⟨(rowsOf db q).map (fun row => Metric.sample i row.labels row.value),
        by rw [heq], ?_⟩
      rw [rowsOf_eq hrs hcols]
      exact scanned_samples_read_cells cols.length i rs.rows hscan

/-- C2, amended, at the end-to-end example: rows `(5, "us")` and `(7, "eu")` give
the observations `us: 5` and `eu: 7`. -/
theorem C2_observations_witness :
    ∃ r, exExporter.Collect exDB = some r ∧
      r.exporter.scrapeFailures = 0 ∧
      r.executed = ["SELECT count, region FROM stats"] ∧
      r.emitted = [Metric.sample 0 ["us"] ⟨5⟩, Metric.sample 0 ["eu"] ⟨7⟩] := by
  obtain ⟨r, h1, h2, h3, h4, _⟩ :=
    C2_observations_per_row exExporter exDB rfl rfl (by
      intro j qj cvj hq hcv
      cases j with
      | zero =>
        simp only [exExporter, exConfig, List.getElem?_cons_zero, Option.some.injEq] at hq hcv
        subst hq
        subst hcv
        exact exDB_answers _ rfl
      | succ j => simp [exExporter, exConfig] at hq)
  refine ⟨r, h1, h2, h3, ?_⟩
  rw [h4]
  have hr : some r = some (⟨⟨exConfig, 0, [({ exFamilyOld with
      children := [(["us"], ⟨5⟩), (["eu"], ⟨7⟩)] })]⟩,
      [Metric.sample 0 ["us"] ⟨5⟩, Metric.sample 0 ["eu"] ⟨7⟩],
      ["SELECT count, region FROM stats"]⟩ : Collected) := by
    rw [← h1]
    rfl
  cases hr
  rfl

/-! ### C3: a failed ping -/

/-- C3: when the ping at the start of `Collect` fails, no query is executed, no
family is changed or sent, the scrape-failure counter is one more than before,
and the only metric sent is the scrape-failure counter. -/
theorem C3_ping_failure (e : Exporter) (db : DB) (err : String) (hping : db.ping = some err) :
    ∃ r, e.Collect db = some r ∧
      r.executed = [] ∧
      r.exporter.counters = e.counters ∧
      r.exporter.config = e.config ∧
      r.exporter.scrapeFailures = e.scrapeFailures + 1 ∧
      r.emitted = [Metric.scrapeFailures (e.scrapeFailures + 1)] := by
  refine ⟨{ exporter := { e with scrapeFailures := e.scrapeFailures + 1 },
            emitted := [Metric.scrapeFailures (e.scrapeFailures + 1)],
            executed := [] }, ?_, rfl, rfl, rfl, rfl, rfl⟩
  unfold Exporter.Collect Exporter.collect
  simp only [hping]
  rfl

/-- C3 at a database that is down. -/
theorem C3_ping_failure_witness :
    ∃ r, exExporter.Collect exDBDown = some r ∧
      r.executed = [] ∧
      r.exporter.counters = exExporter.counters ∧
      r.exporter.config = exExporter.config ∧
      r.exporter.scrapeFailures = exExporter.scrapeFailures + 1 ∧
      r.emitted = [Metric.scrapeFailures (exExporter.scrapeFailures + 1)] :=
  C3_ping_failure exExporter exDBDown "connection refused" rfl

/-! ### C4: a failed query -/

/-- C4 as stated fails: the first query executes and its row scans, the second
query fails, but the first query has come back with one column more than its
family has label names, `WithLabelValues` panics on the row, and `Collect` does
not return: no family is sent and no failure is counted. -/
theorem C4_changed_columns_panic :
    exDBWide.ping = none ∧
    (∃ rs, exDBWide.query exQuery.SQL = .ok rs ∧
      rs.columns = .ok ["count", "region", "zone"] ∧
      rs.rows.map (Scan 3) = [.ok { value := ⟨5⟩, labels := ["us", "a"] }]) ∧
    exDBWide.query exQuery2.SQL = .error "no such table" ∧
    exExporter2.config.Queries = [exQuery, exQuery2] ∧
    exExporter2.counters.map CounterVec.labelNames = [["region"], []] ∧
    exExporter2.Collect exDBWide = none := by
  exact ⟨rfl, ⟨_, rfl, rfl, rfl⟩, rfl, rfl, rfl, rfl⟩

/-- C4, amended: when there is one family per query, the ping succeeds, queries
`0..k-1` answer (each executes, reports its columns, as many as its family takes
when it has rows, and every row scans) and the execution of query `k` fails,
`Collect` returns with: the scrape-failure counter one more than before; the SQL
texts of queries `0..k` executed and no other; families `0..k-1` sent in config
order, each as it stands after this cycle's rows were set on it, the last row of
each label tuple giving the value sent; families `k` onwards as they were before
the call and not sent; and the scrape-failure counter sent last. -/
theorem C4_query_failure (e : Exporter) (db : DB) (k : Nat) (q : Query) (d : String)
    (hwf : e.counters.length = e.config.Queries.length)
    (hping : db.ping = none)
    (hk : e.config.Queries[k]? = some q)
    (hok : ∀ (j : Nat) (qj : Query) (cvj : CounterVec), j < k →
      e.config.Queries[j]? = some qj → e.counters[j]? = some cvj → Answers db qj cvj)
    (hfail : db.query q.SQL = .error d) :
    ∃ r, e.Collect db = some r ∧
      r.exporter.scrapeFailures = e.scrapeFailures + 1 ∧
      r.executed = (e.config.Queries.take (k + 1)).map Query.SQL ∧
      r.emitted = collectAll 0 (refreshed db (e.config.Queries.take k) (e.counters.take k))
          ++ [Metric.scrapeFailures (e.scrapeFailures + 1)] ∧
      r.exporter.counters.length = e.counters.length ∧
      (∀ (j : Nat) (qj : Query) (cvj : CounterVec), j < k →
        e.config.Queries[j]? = some qj → e.counters[j]? = some cvj →
        r.exporter.counters[j]? = some (cvj.withRows (rowsOf db qj)) ∧
        samplesOf j r.emitted = (cvj.withRows (rowsOf db qj)).Collect j ∧
        ∀ (pre post : List Row) (row : Row), rowsOf db qj = pre ++ row :: post →
          (∀ r1 ∈ post, r1.labels ≠ row.labels) →
          Metric.sample j row.labels row.value ∈ r.emitted) ∧
      (∀ j, k ≤ j → r.exporter.counters[j]? = e.counters[j]? ∧ samplesOf j r.emitted = []) := by
  obtain ⟨hQ, hklt⟩ := split_at_getElem? hk
  have hkc : k ≤ e.counters.length := by omega
  have hF := forall₂_take_of_getElem? db k e.config.Queries e.counters (Nat.le_of_lt hklt) hkc hok
  have hloop := collectLoop_fail_at db (e.config.Queries.take k) (e.config.Queries.drop (k + 1)) q
    (e.counters.take k) (e.counters.drop k) d hF hfail
  rw [← hQ, List.take_append_drop] at hloop
  have hlen : (refreshed db (e.config.Queries.take k) (e.counters.take k)).length = k := by
    rw [refreshed_length, List.length_take, List.length_take]
    omega
  have hsamples : ∀ (j : Nat) (qj : Query) (cvj : CounterVec), j < k →
      e.config.Queries[j]? = some qj → e.counters[j]? = some cvj →
      (refreshed db (e.config.Queries.take k) (e.counters.take k))[j]?
        = some (cvj.withRows (rowsOf db qj)) := by
    intro j qj cvj hj hqj hcvj
    apply refreshed_getElem?
    · rw [List.getElem?_take_of_lt hj, hqj]
    · rw [List.getElem?_take_of_lt hj, hcvj]
  refine ⟨{ exporter := { e with
                counters := refreshed db (e.config.Queries.take k) (e.counters.take k)
                  ++ e.counters.drop k,
                scrapeFailures := e.scrapeFailures + 1 },
            emitted := collectAll 0 (refreshed db (e.config.Queries.take k) (e.counters.take k))
              ++ [Metric.scrapeFailures (e.scrapeFailures + 1)],
            executed := (e.config.Queries.take k).map Query.SQL ++ [q.SQL] },
    ?_, rfl, ?_, rfl, ?_, ?_, ?_⟩
  · unfold Exporter.Collect
    rw [collect_eq e db hping, hloop]
  · show (e.config.Queries.take k).map Query.SQL ++ [q.SQL] = _
    rw [List.take_succ, hk]
    simp
  · show (refreshed db (e.config.Queries.take k) (e.counters.take k) ++ e.counters.drop k).length
      = _
    rw [List.length_append, hlen, List.length_drop]
    omega
  · intro j qj cvj hj hqj hcvj
    have hget := hsamples j qj cvj hj hqj hcvj
    have hs : samplesOf j (collectAll 0 (refreshed db (e.config.Queries.take k)
        (e.counters.take k)) ++ [Metric.scrapeFailures (e.scrapeFailures + 1)])
        = (cvj.withRows (rowsOf db qj)).Collect j := by
      have := samplesOf_collectAll _ 0 j _ hget
      rw [Nat.zero_add] at this
      rw [samplesOf_append, this, samplesOf_failure, List.append_nil]
    refine ⟨?_, hs, ?_⟩
    · show (refreshed db (e.config.Queries.take k) (e.counters.take k)
        ++ e.counters.drop k)[j]? = _
      rw [List.getElem?_append_left (by omega), hget]
    · intro pre post row hsplit hlast
      apply mem_of_mem_samplesOf (i := j)
      rw [hs, mem_Collect_iff]
      show (row.labels, row.value) ∈ setRows (rowsOf db qj) cvj.children
      rw [hsplit]
      exact mem_setRows_last pre post row cvj.children hlast
  · intro j hj
    refine ⟨?_, ?_⟩
    · show (refreshed db (e.config.Queries.take k) (e.counters.take k)
        ++ e.counters.drop k)[j]? = _
      rw [List.getElem?_append_right (by omega), hlen, List.getElem?_drop]
      congr 1
      omega
    · have := samplesOf_collectAll_ge
        (refreshed db (e.config.Queries.take k) (e.counters.take k)) 0 j (by omega)
      rw [Nat.zero_add] at this
      show samplesOf j (_ ++ _) = []
      rw [samplesOf_append, this, samplesOf_failure]
      rfl

/-- C4, amended, at two queries of which the second has no table: the first family is
sent, the second query is the last executed, the failure is counted. -/
theorem C4_query_failure_witness :
    ∃ r, exExporter2.Collect exDB = some r ∧
      r.exporter.scrapeFailures = 1 ∧
      r.executed = ["SELECT count, region FROM stats", "SELECT n FROM jobs"] ∧
      r.emitted = [Metric.sample 0 ["us"] ⟨5⟩, Metric.sample 0 ["eu"] ⟨7⟩,
        Metric.scrapeFailures 1] := by
  obtain ⟨r, h1, h2, h3, h4, _⟩ :=
    C4_query_failure exExporter2 exDB 1 exQuery2 "no such table" rfl rfl rfl
      (by
        intro j qj cvj hj hq hcv
        have hj0 : j = 0 := by omega
        subst hj0
        simp only [exExporter2, exConfig2, List.getElem?_cons_zero, Option.some.injEq] at hq hcv
        subst hq
        subst hcv
        exact exDB_answers _ rfl)
      rfl
  exact ⟨r, h1, h2, h3, h4⟩

/-! ### C5: rows set, they do not accumulate -/

/-- C5: row processing sets, it does not accumulate.  For every prior state `cv`
of family `i` and every list of rows that scan (giving `rows`) and fit the
family, the row loop completes, and for each row `r` that is the last one with
its label tuple the child of that tuple holds `r.value`, and that is the value
sent for the tuple: whatever the family held for the tuple before, and whatever
values earlier rows with the same tuple carried. -/
theorem C5_rows_set_not_accumulate (n i : Nat) (raws : List (List Cell))
    (counters : List CounterVec) (cv : CounterVec) (rows : List Row)
    (hcv : counters[i]? = some cv)
    (hscan : raws.map (Scan n) = rows.map Except.ok)
    (hfit : ∀ r ∈ rows, r.labels.length = cv.labelNames.length) :
    ∃ cv1, rowLoop n i raws counters = .done (counters.set i cv1) ∧
      cv1.labelNames = cv.labelNames ∧
      ∀ (pre post : List Row) (r : Row), rows = pre ++ r :: post →
        (∀ r1 ∈ post, r1.labels ≠ r.labels) →
        getChild r.labels cv1.children = some r.value ∧
        Metric.sample i r.labels r.value ∈ cv1.Collect i ∧
        ∀ v, Metric.sample i r.labels v ∈ cv1.Collect i → v = r.value := by
  obtain ⟨hall, hrows⟩ := scanned_of_map_ok n raws rows hscan
  have harity : raws = [] ∨ n = cv.labelNames.length + 1 := by
    cases raws with
    | nil => exact Or.inl rfl
    | cons r0 raws0 =>
      right
      obtain ⟨row, hrow⟩ := hall r0 (List.mem_cons_self _ _)
      have hmem : row ∈ rows := by
        rw [← hrows, scanned_cons_ok raws0 hrow]
        exact List.mem_cons_self _ _
      have h1 := Scan_labels_length hrow
      have h2 := hfit row hmem
      omega
  refine ⟨cv.withRows rows, ?_, rfl, ?_⟩
  · rw [rowLoop_done n i raws counters cv hcv hall harity, hrows]
  · intro pre post r hsplit hlast
    subst hsplit
    have hmem : (r.labels, r.value) ∈ setRows (pre ++ r :: post) cv.children :=
      mem_setRows_last pre post r cv.children hlast
    refine ⟨?_, ?_, ?_⟩
    · exact getChild_eq_some ⟨_, hmem, rfl⟩
        (fun p hp hk => setRows_last_value pre post r cv.children hlast hp hk)
    · exact (mem_Collect_iff _ i r.labels r.value).mpr hmem
    · intro v hv
      exact setRows_last_value pre post r cv.children hlast
        ((mem_Collect_iff _ i r.labels v).mp hv) rfl

/-- C5 at a family that held `1` for `us` and two rows `(5, us)`, `(7, us)`: the
family ends with `7` for `us`, not `1 + 5 + 7`. -/
theorem C5_rows_witness :
    ∃ cv1, rowLoop 2 0 [[cellNum 5 "5", cellText "us"], [cellNum 7 "7", cellText "us"]]
        [exFamilyOld] = .done ([exFamilyOld].set 0 cv1) ∧
      cv1.labelNames = exFamilyOld.labelNames ∧
      ∀ (pre post : List Row) (r : Row),
        [({ value := ⟨5⟩, labels := ["us"] } : Row), { value := ⟨7⟩, labels := ["us"] }]
          = pre ++ r :: post →
        (∀ r1 ∈ post, r1.labels ≠ r.labels) →
        getChild r.labels cv1.children = some r.value ∧
        Metric.sample 0 r.labels r.value ∈ cv1.Collect 0 ∧
        ∀ v, Metric.sample 0 r.labels v ∈ cv1.Collect 0 → v = r.value :=
  C5_rows_set_not_accumulate 2 0 _ [exFamilyOld] exFamilyOld _ rfl rfl (by
    intro r hr
    simp only [List.mem_cons, List.mem_singleton, List.not_mem_nil, or_false] at hr
    rcases hr with h | h <;> subst h <;> rfl)

/-! ### C6: a row that does not scan -/

/-- C6 as stated fails in two ways.  The second row of the only query does not
scan, and after the call family `0` holds the observation of the first row,
which it did not hold before.  And when the rows have one column more than the
family has label names, `WithLabelValues` panics on the first row, before the
second row is scanned: `Collect` does not return and no failure is counted. -/
theorem C6_family_k_partly_updated :
    (exDBBadRow.ping = none ∧
      (∃ rs, exDBBadRow.query exQuery.SQL = .ok rs ∧
        rs.rows = [[cellNum 5 "5", cellText "us"], [cellText "n/a", cellText "eu"]] ∧
        Scan 2 [cellNum 5 "5", cellText "us"] = .ok { value := ⟨5⟩, labels := ["us"] } ∧
        (∃ d, Scan 2 [cellText "n/a", cellText "eu"] = .error d)) ∧
      exExporter.counters.map CounterVec.children = [[]] ∧
      ∃ r, exExporter.Collect exDBBadRow = some r ∧
        r.exporter.scrapeFailures = exExporter.scrapeFailures + 1 ∧
        r.exporter.counters.map CounterVec.children = [[(["us"], ⟨5⟩)]] ∧
        r.exporter.counters ≠ exExporter.counters) ∧
    (exDBWideBadRow.ping = none ∧
      (∃ rs, exDBWideBadRow.query exQuery.SQL = .ok rs ∧
        rs.columns = .ok ["count", "region", "zone"] ∧
        rs.rows = [[cellNum 5 "5", cellText "us", cellText "a"],
                   [cellText "n/a", cellText "eu", cellText "b"]] ∧
        Scan 3 [cellNum 5 "5", cellText "us", cellText "a"]
          = .ok { value := ⟨5⟩, labels := ["us", "a"] } ∧
        (∃ d, Scan 3 [cellText "n/a", cellText "eu", cellText "b"] = .error d)) ∧
      exExporter.counters.map CounterVec.labelNames = [["region"]] ∧
      exExporter.Collect exDBWideBadRow = none) := by
  refine ⟨⟨rfl, ⟨_, rfl, rfl, rfl, _, rfl⟩, rfl, _, rfl, rfl, rfl, ?_⟩,
    ⟨rfl, ⟨_, rfl, rfl, rfl, rfl, _, rfl⟩, rfl, rfl⟩⟩
  decide

/-- C6, amended: when there is one family per query, the ping succeeds, queries
`0..k-1` answer, and query `k` executes and reports its columns but one of its
rows does not scan, the rows before it scanning and fitting family `k`,
`Collect` returns with: the scrape-failure counter one more than before; the SQL
texts of queries `0..k` executed and no other; families `0..k-1` sent as in a
cycle without failure and family `k` and the later ones not sent; the families
after `k` as they were before the call; and family `k` holding the rows before
the failing one (so unchanged when the first row fails). -/
theorem C6_scan_failure (e : Exporter) (db : DB) (k : Nat) (q : Query) (cv : CounterVec)
    (rs : ResultSet) (cols : List String) (good rest : List (List Cell)) (bad : List Cell)
    (d : String)
    (hwf : e.counters.length = e.config.Queries.length)
    (hping : db.ping = none)
    (hk : e.config.Queries[k]? = some q)
    (hcv : e.counters[k]? = some cv)
    (hok : ∀ (j : Nat) (qj : Query) (cvj : CounterVec), j < k →
      e.config.Queries[j]? = some qj → e.counters[j]? = some cvj → Answers db qj cvj)
    (hq : db.query q.SQL = .ok rs) (hcols : rs.columns = .ok cols) (hne : cols ≠ [])
    (hrows : rs.rows = good ++ bad :: rest)
    (hgood : ∀ r ∈ good, ∃ row, Scan cols.length r = .ok row)
    (harity : good = [] ∨ cols.length = cv.labelNames.length + 1)
    (hbad : Scan cols.length bad = .error d) :
    ∃ r, e.Collect db = some r ∧
      r.exporter.scrapeFailures = e.scrapeFailures + 1 ∧
      r.executed = (e.config.Queries.take (k + 1)).map Query.SQL ∧
      r.emitted = collectAll 0 (refreshed db (e.config.Queries.take k) (e.counters.take k))
          ++ [Metric.scrapeFailures (e.scrapeFailures + 1)] ∧
      r.exporter.counters.length = e.counters.length ∧
      (∀ (j : Nat) (qj : Query) (cvj : CounterVec), j < k →
        e.config.Queries[j]? = some qj → e.counters[j]? = some cvj →
        r.exporter.counters[j]? = some (cvj.withRows (rowsOf db qj)) ∧
        samplesOf j r.emitted = (cvj.withRows (rowsOf db qj)).Collect j) ∧
      r.exporter.counters[k]? = some (cv.withRows (scanned cols.length good)) ∧
      (good = [] → r.exporter.counters[k]? = e.counters[k]?) ∧
      (∀ j, k ≤ j → samplesOf j r.emitted = []) ∧
      (∀ j, k < j → r.exporter.counters[j]? = e.counters[j]?) := by
  obtain ⟨hQ, hklt⟩ := split_at_getElem? hk
  obtain ⟨hC, hkc⟩ := split_at_getElem? hcv
  have hF := forall₂_take_of_getElem? db k e.config.Queries e.counters (Nat.le_of_lt hklt)
    (Nat.le_of_lt hkc) hok
  have hloop := collectLoop_scan_fail_at db (e.config.Queries.take k)
    (e.config.Queries.drop (k + 1)) q (e.counters.take k) (e.counters.drop (k + 1)) cv rs cols
    good rest bad d hF hq hcols hne hrows hgood harity hbad
  rw [← hQ, ← hC] at hloop
  have hlen : (refreshed db (e.config.Queries.take k) (e.counters.take k)).length = k := by
    rw [refreshed_length, List.length_take, List.length_take]
    omega
  have hsamples : ∀ (j : Nat) (qj : Query) (cvj : CounterVec), j < k →
      e.config.Queries[j]? = some qj → e.counters[j]? = some cvj →
      (refreshed db (e.config.Queries.take k) (e.counters.take k))[j]?
        = some (cvj.withRows (rowsOf db qj)) := by
    intro j qj cvj hj hqj hcvj
    apply refreshed_getElem?
    · rw [List.getElem?_take_of_lt hj, hqj]
    · rw [List.getElem?_take_of_lt hj, hcvj]
  have hkth : (refreshed db (e.config.Queries.take k) (e.counters.take k)
      ++ cv.withRows (scanned cols.length good) :: e.counters.drop (k + 1))[k]?
      = some (cv.withRows (scanned cols.length good)) := by
    have := getElem?_middle (refreshed db (e.config.Queries.take k) (e.counters.take k))
      (e.counters.drop (k + 1)) (cv.withRows (scanned cols.length good))
    rw [hlen] at this
    exact this
  refine ⟨{ exporter := { e with
                counters := refreshed db (e.config.Queries.take k) (e.counters.take k)
                  ++ cv.withRows (scanned cols.length good) :: e.counters.drop (k + 1),
                scrapeFailures := e.scrapeFailures + 1 },
            emitted := collectAll 0 (refreshed db (e.config.Queries.take k) (e.counters.take k))
              ++ [Metric.scrapeFailures (e.scrapeFailures + 1)],
            executed := (e.config.Queries.take k).map Query.SQL ++ [q.SQL] },
    ?_, rfl, ?_, rfl, ?_, ?_, hkth, ?_, ?_, ?_⟩
  · unfold Exporter.Collect
    rw [collect_eq e db hping, hloop]
  · show (e.config.Queries.take k).map Query.SQL ++ [q.SQL] = _
    rw [List.take_succ, hk]
    simp
  · show (refreshed db (e.config.Queries.take k) (e.counters.take k)
      ++ cv.withRows (scanned cols.length good) :: e.counters.drop (k + 1)).length = _
    rw [List.length_append, hlen, List.length_cons, List.length_drop]
    omega
  · intro j qj cvj hj hqj hcvj
    have hget := hsamples j qj cvj hj hqj hcvj
    refine ⟨?_, ?_⟩
    · show (refreshed db (e.config.Queries.take k) (e.counters.take k)
        ++ cv.withRows (scanned cols.length good) :: e.counters.drop (k + 1))[j]? = _
      rw [List.getElem?_append_left (by omega), hget]
    · have := samplesOf_collectAll _ 0 j _ hget
      rw [Nat.zero_add] at this
      show samplesOf j (_ ++ _) = _
      rw [samplesOf_append, this, samplesOf_failure, List.append_nil]
  · intro hnil
    show (refreshed db (e.config.Queries.take k) (e.counters.take k)
      ++ cv.withRows (scanned cols.length good) :: e.counters.drop (k + 1))[k]? = _
    rw [hkth, hcv, hnil, scanned_nil, withRows_nil]
  · intro j hj
    have := samplesOf_collectAll_ge
      (refreshed db (e.config.Queries.take k) (e.counters.take k)) 0 j (by omega)
    rw [Nat.zero_add] at this
    show samplesOf j (_ ++ _) = []
    rw [samplesOf_append, this, samplesOf_failure]
    rfl
  · intro j hj
    show (refreshed db (e.config.Queries.take k) (e.counters.take k)
      ++ cv.withRows (scanned cols.length good) :: e.counters.drop (k + 1))[j]? = _
    rw [List.getElem?_append_right (by omega), hlen]
    obtain ⟨m, hm⟩ : ∃ m, j - k = m + 1 := ⟨j - k - 1, by omega⟩
    rw [hm, List.getElem?_cons_succ, List.getElem?_drop]
    congr 1
    omega

/-- C6, amended, at a query whose second row does not scan: the first row stays
set on the family, nothing of the family is sent, the failure is counted. -/
theorem C6_scan_failure_witness :
    ∃ r, exExporter.Collect exDBBadRow = some r ∧
      r.exporter.scrapeFailures = 1 ∧
      r.executed = ["SELECT count, region FROM stats"] ∧
      r.emitted = [Metric.scrapeFailures 1] ∧
      r.exporter.counters[0]? = some ({ exFamilyOld with children := [(["us"], ⟨5⟩)] }) := by
  obtain ⟨r, h1, h2, h3, h4, _, _, h7, _⟩ :=
    C6_scan_failure exExporter exDBBadRow 0 exQuery
      (NewCounterVec namespace_ "stats" "stats by region" ["region"]) exStatsBadRow
      ["count", "region"] [[cellNum 5 "5", cellText "us"]] [] [cellText "n/a", cellText "eu"]
      "converting driver.Value type string to a float64: invalid syntax"
      rfl rfl rfl rfl
      (by intro j qj cvj hj; omega)
      rfl rfl (by simp) rfl
      (by
        intro r hr
        simp only [List.mem_singleton] at hr
        subst hr
        exact ⟨_, rfl⟩)
      (Or.inr rfl) rfl
  exact ⟨r, h1, h2, h3, h4, h7⟩

/-! ### C7: a probe without columns -/

/-- C7 at a statement without result columns: the probe reports an empty column
list, and `cols[1:]` panics; `GetCounters` and `NewExporter` return neither an
error nor an exporter. -/
theorem C7_empty_columns_panics :
    exDBDo.ping = none ∧
    (∃ rs, exDBDo.query exQueryDo.SQL = .ok rs ∧ rs.columns = .ok []) ∧
    GetCounters exConfigDo exDBDo = .panic ∧
    NewExporter exConfigDo exDBDo = .panic ∧
    (∀ e, GetCounters exConfigDo exDBDo ≠ .err e) := by
  refine ⟨rfl, ⟨_, rfl, rfl⟩, rfl, rfl, ?_⟩
  intro e h
  cases h

/-! ### C8: the error of a failed probe -/

/-- C8 as stated fails: the probe of `SELECT count, region FROM stats` fails with
the driver error `connection lost`, and the error `GetCounters` and `NewExporter`
return is that driver error alone; the SQL text is no part of it. -/
theorem C8_sql_text_not_in_error :
    exDBLost.ping = none ∧
    (∃ d, exDBLost.query exQuery.SQL = .error d ∧ d = "connection lost") ∧
    GetCounters exConfig exDBLost = .err "connection lost" ∧
    NewExporter exConfig exDBLost = .err "connection lost" ∧
    ¬ (exQuery.SQL.data <:+: "connection lost".data) := by
  refine ⟨rfl, ⟨_, rfl, rfl⟩, rfl, rfl, ?_⟩
  decide

/-- C8, amended: when the initial ping succeeds, every earlier probe succeeds and
the probe of a query fails with the driver error `d`, `GetCounters` and
`NewExporter` return exactly `d`, unchanged, and no exporter. -/
theorem C8_probe_error_returned_unchanged (config : Config) (db : DB)
    (pre post : List Query) (q : Query) (d : String)
    (hping : db.ping = none)
    (hqs : config.Queries = pre ++ q :: post)
    (hpre : ∀ p ∈ pre, ∃ rs col cols, db.query p.SQL = .ok rs ∧ rs.columns = .ok (col :: cols))
    (hq : db.query q.SQL = .error d) :
    GetCounters config db = .err d ∧ NewExporter config db = .err d := by
  have hget : GetCounters config db = .err d := by
    unfold GetCounters
    simp only [hping, hqs, GetCounters_loop_err db pre post q d hpre hq]
  refine ⟨hget, ?_⟩
  unfold NewExporter
  simp only [hget]

/-- C8, amended, at a database whose only table is lost. -/
theorem C8_probe_error_witness :
    GetCounters exConfig exDBLost = .err "connection lost" ∧
    NewExporter exConfig exDBLost = .err "connection lost" :=
  C8_probe_error_returned_unchanged exConfig exDBLost [] [] exQuery "connection lost" rfl rfl
    (by intro p hp; cases hp) rfl

/-! ### C9: a scrape is idempotent -/

/-- C9: a scrape is idempotent.  When a cycle succeeds, the next cycle against
the same database content succeeds too, sends the same observations, and leaves
the exporter as the first cycle left it. -/
theorem C9_scrape_idempotent (e : Exporter) (db : DB) (s : Scrape)
    (hfirst : e.collect db = .done s) :
    ∃ r1 r2, e.Collect db = some r1 ∧ r1.exporter.Collect db = some r2 ∧
      r1.exporter.scrapeFailures = e.scrapeFailures ∧
      (∃ s2, r1.exporter.collect db = .done s2) ∧
      r2.exporter.scrapeFailures = r1.exporter.scrapeFailures ∧
      r2.emitted = r1.emitted ∧
      (∀ m, m ∈ r2.emitted ↔ m ∈ r1.emitted) ∧
      r2.exporter = r1.exporter := by
  cases hping : db.ping with
  | some err =>
    unfold Exporter.collect at hfirst
    simp only [hping] at hfirst
    cases hfirst
  | none =>
    have h0 := hfirst
    rw [collect_eq e db hping] at h0
    obtain ⟨todo, post, hsplit, hF⟩ :=
      collectLoop_done_inv db e.config.Queries 0 [] e.counters [] [] s rfl h0
    have h1 := collectLoop_all db e.config.Queries todo post hF
    have h2 := collectLoop_all db e.config.Queries (refreshed db e.config.Queries todo) post
      (refreshed_idem db e.config.Queries todo hF).1
    rw [(refreshed_idem db e.config.Queries todo hF).2] at h2
    have hc1 : e.collect db = .done
        { counters := refreshed db e.config.Queries todo ++ post,
          ch := collectAll 0 (refreshed db e.config.Queries todo),
          executed := e.config.Queries.map Query.SQL } := by
      rw [collect_eq e db hping, hsplit, h1]
    have hc2 : ({ e with counters := refreshed db e.config.Queries todo ++ post }
          : Exporter).collect db = .done
        { counters := refreshed db e.config.Queries todo ++ post,
          ch := collectAll 0 (refreshed db e.config.Queries todo),
          executed := e.config.Queries.map Query.SQL } := by
      rw [collect_eq _ db hping]
      exact h2
    refine ⟨{ exporter := { e with counters := refreshed db e.config.Queries todo ++ post },
              emitted := collectAll 0 (refreshed db e.config.Queries todo),
              executed := e.config.Queries.map Query.SQL },
            { exporter := { e with counters := refreshed db e.config.Queries todo ++ post },
              emitted := collectAll 0 (refreshed db e.config.Queries todo),
              executed := e.config.Queries.map Query.SQL },
            ?_, ?_, rfl, ⟨_, hc2⟩, rfl, rfl, fun m => Iff.rfl, rfl⟩
    · unfold Exporter.Collect
      rw [hc1]
    · unfold Exporter.Collect
      rw [hc2]

/-- C9 at the end-to-end example, from an exporter that holds an older
observation: both cycles send `ap: 1`, `us: 5`, `eu: 7`. -/
theorem C9_scrape_idempotent_witness :
    ∃ r1 r2, exExporterStale.Collect exDB = some r1 ∧ r1.exporter.Collect exDB = some r2 ∧
      r1.exporter.scrapeFailures = exExporterStale.scrapeFailures ∧
      (∃ s2, r1.exporter.collect exDB = .done s2) ∧
      r2.exporter.scrapeFailures = r1.exporter.scrapeFailures ∧
      r2.emitted = r1.emitted ∧
      (∀ m, m ∈ r2.emitted ↔ m ∈ r1.emitted) ∧
      r2.exporter = r1.exporter :=
  C9_scrape_idempotent exExporterStale exDB _ rfl

end SqlExporter
